import Mathlib

/-!
Verification of the rstructor schema-synthesis, dialect-adaptation and
retry-coordination core against its specification.

The development shallowly embeds the relevant Rust functions:
JSON values (`serde_json::Value`) become the inductive `Json`, with JSON
objects as association lists in insertion order; the schema adapters,
response reshaper, error classifier and retry loop become Lean functions
translated clause by clause from `src/backend/utils.rs`; the derive-side
schema generators (`rstructor_derive`) are embedded as functions from
descriptor values (mirroring the `syn` data the macros consume) to the
JSON schema values their generated code produces at runtime.
-/

namespace Rstructor

/-- Shallow embedding of `serde_json::Value`.  Objects are association
lists of key/value pairs kept in insertion order; numbers are modelled
as integers (no claim under consideration depends on float payloads). -/
inductive Json where
  | null
  | bool (b : Bool)
  | num (n : Int)
  | str (s : String)
  | arr (elems : List Json)
  | obj (fields : List (String × Json))
deriving Repr, BEq

mutual

/-- Decidable equality for `Json` (the nested inductive blocks automatic
derivation, so it is written out by mutual recursion). -/
def Json.decEq : (a b : Json) → Decidable (a = b)
  | .null, .null => isTrue rfl
  | .bool a, .bool b =>
    if h : a = b then isTrue (by rw [h]) else isFalse (by simp [h])
  | .num a, .num b =>
    if h : a = b then isTrue (by rw [h]) else isFalse (by simp [h])
  | .str a, .str b =>
    if h : a = b then isTrue (by rw [h]) else isFalse (by simp [h])
  | .arr a, .arr b =>
    match Json.decEqList a b with
    | isTrue h => isTrue (by rw [h])
    | isFalse h => isFalse (by simp [h])
  | .obj a, .obj b =>
    match Json.decEqFields a b with
    | isTrue h => isTrue (by rw [h])
    | isFalse h => isFalse (by simp [h])
  | .null, .bool _ | .null, .num _ | .null, .str _ | .null, .arr _
  | .null, .obj _ => isFalse (by intro h; cases h)
  | .bool _, .null | .bool _, .num _ | .bool _, .str _ | .bool _, .arr _
  | .bool _, .obj _ => isFalse (by intro h; cases h)
  | .num _, .null | .num _, .bool _ | .num _, .str _ | .num _, .arr _
  | .num _, .obj _ => isFalse (by intro h; cases h)
  | .str _, .null | .str _, .bool _ | .str _, .num _ | .str _, .arr _
  | .str _, .obj _ => isFalse (by intro h; cases h)
  | .arr _, .null | .arr _, .bool _ | .arr _, .num _ | .arr _, .str _
  | .arr _, .obj _ => isFalse (by intro h; cases h)
  | .obj _, .null | .obj _, .bool _ | .obj _, .num _ | .obj _, .str _
  | .obj _, .arr _ => isFalse (by intro h; cases h)

def Json.decEqList : (a b : List Json) → Decidable (a = b)
  | [], [] => isTrue rfl
  | a :: as, b :: bs =>
    match Json.decEq a b, Json.decEqList as bs with
    | isTrue h1, isTrue h2 => isTrue (by rw [h1, h2])
    | isFalse h1, _ => isFalse (by simp [h1])
    | _, isFalse h2 => isFalse (by simp [h2])
  | [], _ :: _ => isFalse (by intro h; cases h)
  | _ :: _, [] => isFalse (by intro h; cases h)

def Json.decEqFields : (a b : List (String × Json)) → Decidable (a = b)
  | [], [] => isTrue rfl
  | (k1, v1) :: as, (k2, v2) :: bs =>
    match String.decEq k1 k2, Json.decEq v1 v2, Json.decEqFields as bs with
    | isTrue h0, isTrue h1, isTrue h2 => isTrue (by rw [h0, h1, h2])
    | isFalse h0, _, _ => isFalse (by simp [h0])
    | _, isFalse h1, _ => isFalse (by simp [h1])
    | _, _, isFalse h2 => isFalse (by simp [h2])
  | [], _ :: _ => isFalse (by intro h; cases h)
  | _ :: _, [] => isFalse (by intro h; cases h)

end

instance : DecidableEq Json := Json.decEq

/-- `serde_json::Map::get`: the value stored under a key (first match). -/
def jget : List (String × Json) → String → Option Json
  | [], _ => none
  | (k, v) :: fs, key => if k = key then some v else jget fs key

/-- `serde_json::Map::contains_key`. -/
def jhas (fs : List (String × Json)) (key : String) : Bool :=
  (jget fs key).isSome

/-- `serde_json::Map::insert`: replace the value in place when the key is
present, append the entry otherwise (the position behaviour of an
insertion-ordered map; lookups agree with a sorted map). -/
def jinsert : List (String × Json) → String → Json → List (String × Json)
  | [], key, v => [(key, v)]
  | (k, w) :: fs, key, v =>
    if k = key then (key, v) :: fs else (k, w) :: jinsert fs key v

/-- `serde_json::Map::remove`: drop the entry stored under a key. -/
def jremove (fs : List (String × Json)) (key : String) : List (String × Json) :=
  fs.filter (fun p => p.1 ≠ key)

/-- Field lookup on a `Json` value (`value.get(key)` on objects). -/
def Json.get : Json → String → Option Json
  | .obj fs, key => jget fs key
  | _, _ => none

/-- Follow a chain of object keys. -/
def jnav : Json → List String → Option Json
  | j, [] => some j
  | j, k :: ks =>
    match j.get k with
    | some v => jnav v ks
    | none => none

/-! ## Strict mode adapter (`add_additional_properties_false`, utils.rs 38-165)

The source mutates one object node: when the node has `type: "object"` or a
`properties` key it inserts `additionalProperties: false` and overwrites
`required` with all property keys (when there is at least one), and it then
recurses into the values stored under the structural keywords.  The two
inserted keys (`additionalProperties`, `required`) are not structural
keywords and the recursion never changes which keys a node has, so the
node-local insertions commute with the recursion; the embedding performs the
structural recursion first and applies the same insertions to its result. -/

/-- Keys whose value is recursed into directly. -/
def strictDirectKeys : List String :=
  ["items", "additionalItems", "not", "if", "then", "else", "contains",
   "propertyNames"]

/-- Keys whose array elements are recursed into. -/
def strictArrayKeys : List String := ["allOf", "anyOf", "oneOf"]

/-- Keys whose object entries have each value recursed into. -/
def strictObjKeys : List String :=
  ["properties", "definitions", "$defs", "patternProperties"]

/-- `obj.get("type").and_then(as_str).is_some_and(|t| t == "object")`. -/
def isObjectTypeNode (fs : List (String × Json)) : Bool :=
  match jget fs "type" with
  | some (.str t) => t = "object"
  | _ => false

/-- Second half of the node-local step: overwrite `required` with every
property key when the node's `properties` value is a non-empty object. -/
def strictLocalAux (props? : Option Json) (out1 : List (String × Json)) :
    List (String × Json) :=
  match props? with
  | some (.obj props) =>
    if props.isEmpty then out1
    else jinsert out1 "required" (.arr (props.map (fun p => .str p.1)))
  | _ => out1

/-- The node-local step of `add_additional_properties_false`: insert
`additionalProperties: false` and overwrite `required` with every property
key (only when the `properties` object is non-empty).  `fs` is the original
node (it determines the conditions and the key list), `out` the node after
the structural recursion (whose keys coincide with those of `fs`). -/
def strictLocal (fs out : List (String × Json)) : List (String × Json) :=
  if isObjectTypeNode fs || jhas fs "properties" then
    strictLocalAux (jget fs "properties")
      (jinsert out "additionalProperties" (.bool false))
  else out

mutual

/-- `add_additional_properties_false` (utils.rs 38-165): prepare a schema
for strict mode by adding `additionalProperties: false` and a full
`required` list to every object node, recursing through the structural
keywords. -/
def addAdditionalPropertiesFalse : Json → Json
  | .obj fs => .obj (strictLocal fs (strictFields fs))
  | j => j

/-- Process the entries of an object node: dispatch each structural keyword
to the recursion the source applies to it. -/
def strictFields : List (String × Json) → List (String × Json)
  | [] => []
  | (k, v) :: fs =>
    (k,
      if k ∈ strictDirectKeys then addAdditionalPropertiesFalse v
      else if k ∈ strictArrayKeys then
        match v with
        | .arr xs => .arr (strictElems xs)
        | _ => v
      else if k ∈ strictObjKeys then
        match v with
        | .obj gs => .obj (strictInner gs)
        | _ => v
      else v) :: strictFields fs

/-- Recurse into the elements of an `allOf`/`anyOf`/`oneOf` array. -/
def strictElems : List Json → List Json
  | [] => []
  | x :: xs => addAdditionalPropertiesFalse x :: strictElems xs

/-- Recurse into the values of a `properties`/`$defs`/`definitions`/
`patternProperties` object. -/
def strictInner : List (String × Json) → List (String × Json)
  | [] => []
  | (k, v) :: fs => (k, addAdditionalPropertiesFalse v) :: strictInner fs

end

/-- `prepare_strict_schema` (utils.rs 29-33). -/
def prepare_strict_schema (schema : Json) : Json :=
  addAdditionalPropertiesFalse schema

/-- Boolean test that one list of JSON values contains exactly the same
elements as another (mutual inclusion, ignoring order and multiplicity). -/
def memJ (x : Json) : List Json → Bool
  | [] => false
  | y :: ys => if x = y then true else memJ x ys

def sameElems (xs ys : List Json) : Bool :=
  xs.all (fun x => memJ x ys) && ys.all (fun y => memJ y xs)

/-- The checker for claim C2 exactly as stated: every reachable node that
has a `properties` map must end with `additionalProperties == false` and a
`required` array containing exactly its property keys, where reachability
recurses into `properties`, `items`, `additionalItems`, the elements of
`prefixItems`, `allOf`/`anyOf`/`oneOf` members, `$defs`/`definitions`
entries, `not`, `if`/`then`/`else`, `patternProperties`, `contains` and
`propertyNames`. -/
def strictClaimKeysOk (fs : List (String × Json)) : Bool :=
  match jget fs "properties" with
  | some (.obj props) =>
    (jget fs "additionalProperties" = some (.bool false) : Bool) &&
    (match jget fs "required" with
     | some (.arr rs) => sameElems rs (props.map (fun p => .str p.1))
     | _ => false)
  | _ => true

mutual

def strictClaimOk : Json → Bool
  | .obj fs => strictClaimKeysOk fs && strictClaimOkFields fs
  | _ => true

def strictClaimOkFields : List (String × Json) → Bool
  | [] => true
  | (k, v) :: fs =>
    (if k ∈ strictDirectKeys then strictClaimOk v
     else if k = "prefixItems" ∨ k ∈ strictArrayKeys then
       match v with
       | .arr xs => strictClaimOkElems xs
       | _ => true
     else if k ∈ strictObjKeys then
       match v with
       | .obj gs => strictClaimOkInner gs
       | _ => true
     else true) && strictClaimOkFields fs

def strictClaimOkElems : List Json → Bool
  | [] => true
  | x :: xs => strictClaimOk x && strictClaimOkElems xs

def strictClaimOkInner : List (String × Json) → Bool
  | [] => true
  | (_, v) :: fs => strictClaimOk v && strictClaimOkInner fs

end

/-- The amended checker: like `strictClaimOk`, but reachability does not
descend into `prefixItems` elements (the adapter never recurses there), and
a node whose `properties` map is empty is only required to carry
`additionalProperties == false` (the adapter skips the `required`
overwrite there, leaving any pre-existing `required` untouched). -/
def strictAmendedKeysOk (fs : List (String × Json)) : Bool :=
  match jget fs "properties" with
  | some (.obj props) =>
    (jget fs "additionalProperties" = some (.bool false) : Bool) &&
    (props.isEmpty ||
      match jget fs "required" with
      | some (.arr rs) => sameElems rs (props.map (fun p => .str p.1))
      | _ => false)
  | _ => true

mutual

def strictAmendedOk : Json → Bool
  | .obj fs => strictAmendedKeysOk fs && strictAmendedOkFields fs
  | _ => true

def strictAmendedOkFields : List (String × Json) → Bool
  | [] => true
  | (k, v) :: fs =>
    (if k ∈ strictDirectKeys then strictAmendedOk v
     else if k ∈ strictArrayKeys then
       match v with
       | .arr xs => strictAmendedOkElems xs
       | _ => true
     else if k ∈ strictObjKeys then
       match v with
       | .obj gs => strictAmendedOkInner gs
       | _ => true
     else true) && strictAmendedOkFields fs

def strictAmendedOkElems : List Json → Bool
  | [] => true
  | x :: xs => strictAmendedOk x && strictAmendedOkElems xs

def strictAmendedOkInner : List (String × Json) → Bool
  | [] => true
  | (_, v) :: fs => strictAmendedOk v && strictAmendedOkInner fs

end

/-! ## Adjacently-tagged enum detection and downgrade (utils.rs 167-552, 732-794)

The Gemini dialect cannot express the nested `content` object of an
adjacently tagged enum, so the adapter detects the Adjacent shape among
`oneOf` members, flattens each member to internal tagging, and records the
tag/content keys so the response can be converted back. -/

/-- `prop_obj.get("enum")` is an array with exactly one string element
(the tag-field test inside `detect_adjacently_tagged_variant`). -/
def enumSingleValue (po : List (String × Json)) : Option String :=
  match jget po "enum" with
  | some (.arr [Json.str val]) => some val
  | _ => none

/-- The content-field test inside `detect_adjacently_tagged_variant`:
`type == "object"` and a `properties` key. -/
def isContentProp (po : List (String × Json)) : Bool :=
  (match jget po "type" with
   | some (.str t) => t = "object"
   | _ => false) && jhas po "properties"

/-- The scan over a variant's properties performed by
`detect_adjacently_tagged_variant`: the state is
(tag key, tag value, content key), each overwritten as matching
properties are found. -/
def detectFold : List (String × Json) →
    Option String × Option String × Option String →
    Option String × Option String × Option String
  | [], st => st
  | (key, prop) :: rest, (tk, tv, ck) =>
    match prop with
    | .obj po =>
      match enumSingleValue po with
      | some val => detectFold rest (some key, some val, ck)
      | none =>
        if isContentProp po then detectFold rest (tk, tv, some key)
        else detectFold rest (tk, tv, ck)
    | _ => detectFold rest (tk, tv, ck)

/-- `detect_adjacently_tagged_variant` (utils.rs 430-478): a `oneOf`
member matches the Adjacent shape when it is an object schema with exactly
two required fields, one property being a single-value enum (the tag) and
another being an object schema with properties (the content).  Returns
`(tag_key, content_key, tag_value)`. -/
def detect_adjacently_tagged_variant (variant : Json) :
    Option (String × String × String) :=
  match variant with
  | .obj vobj =>
    if (match jget vobj "type" with
        | some (.str t) => (t = "object" : Bool)
        | _ => false) then
      match jget vobj "properties", jget vobj "required" with
      | some (.obj properties), some (.arr required) =>
        if required.length = 2 then
          match detectFold properties (none, none, none) with
          | (some tag, some value, some content) => some (tag, content, value)
          | _ => none
        else none
      | _, _ => none
    else none
  | _ => none

/-- Insert every entry of the second map into the first
(`properties.insert(key, value)` in a loop). -/
def insertAll (m : List (String × Json)) : List (String × Json) →
    List (String × Json)
  | [] => m
  | (k, v) :: rest => insertAll (jinsert m k v) rest

/-- `required_array.retain(|v| v.as_str() != Some(content_key))`. -/
def retainNotContent (content_key : String) : List Json → List Json :=
  List.filter (fun v =>
    match v with
    | .str s => decide (s ≠ content_key)
    | _ => true)

/-- Append each field of the second list that the first does not already
contain (`if !required_array.contains(&field) { push }`). -/
def pushMissing : List Json → List Json → List Json
  | req, [] => req
  | req, f :: rest => pushMissing (if memJ f req then req else req ++ [f]) rest

/-- `transform_adjacently_tagged_to_internally_tagged` (utils.rs 482-552):
flatten the content object's properties into the variant, merge its
required list, drop the content key, and tag the description.  The source
unwraps `properties` (it is only called after detection succeeded); the
missing-properties fall-through here returns the variant unchanged. -/
def transform_adjacently_tagged_to_internally_tagged
    (variant : Json) (_tag_key content_key _tag_value : String) : Json :=
  match variant with
  | .obj vobj =>
    let contentPair : List (String × Json) × List Json :=
      match jget vobj "properties" with
      | some (.obj properties) =>
        match jget properties content_key with
        | some (.obj contentObj) =>
          ((match jget contentObj "properties" with
            | some (.obj cp) => cp
            | _ => []),
           (match jget contentObj "required" with
            | some (.arr cr) => cr
            | _ => []))
        | _ => ([], [])
      | _ => ([], [])
    let obj1 :=
      match jget vobj "properties" with
      | some (.obj properties) =>
        jinsert vobj "properties"
          (.obj (jremove (insertAll properties contentPair.1) content_key))
      | _ => vobj
    let obj2 :=
      match jget obj1 "required" with
      | some (.arr reqs) =>
        jinsert obj1 "required"
          (.arr (pushMissing (retainNotContent content_key reqs) contentPair.2))
      | _ => obj1
    let obj3 :=
      match jget obj2 "description" with
      | some (.str d) =>
        jinsert obj2 "description"
          (.str (d ++ " (flattened for Gemini compatibility)"))
      | _ => obj2
    .obj obj3
  | _ => variant

/-- The unit-variant test in the `oneOf` scan of
`strip_gemini_unsupported_keywords_recursive` (utils.rs 754-771): exactly
one property and a one-element `required` array. -/
def isUnitTagVariant (item : Json) : Bool :=
  match item with
  | .obj vobj =>
    (match jget vobj "properties" with
     | some (.obj props) => props.length = 1
     | _ => false) &&
    (match jget vobj "required" with
     | some (.arr reqs) => reqs.length = 1
     | _ => false)
  | _ => false

/-- The first pass over the `oneOf` members (utils.rs 737-772): check that
every member is either Adjacent-shaped with consistent tag/content keys or
a unit variant.  Returns `none` when the members are not uniformly
adjacently tagged, otherwise the tag/content keys found (if any). -/
def adjCheckFold : List Json → Option (String × String) →
    Option (Option (String × String))
  | [], info => some info
  | item :: rest, info =>
    match detect_adjacently_tagged_variant item with
    | some (t, c, _) =>
      match info with
      | some (et, ec) =>
        if t = et ∧ c = ec then adjCheckFold rest (some (et, ec)) else none
      | none => adjCheckFold rest (some (t, c))
    | none =>
      if isUnitTagVariant item then adjCheckFold rest info else none

/-- The tag-scheme downgrade applied to a `oneOf` array by
`strip_gemini_unsupported_keywords_recursive` (utils.rs 732-788): when
every member is adjacently tagged (or unit) with consistent keys, rewrite
each detected member to internal tagging; otherwise leave the array
unchanged.  (The surrounding keyword-stripping recursion of the source
does not alter the property/required structure this development reasons
about.) -/
def geminiOneOfDowngrade (members : List Json) : List Json :=
  match adjCheckFold members none with
  | some (some _) =>
    members.map (fun item =>
      match detect_adjacently_tagged_variant item with
      | some (t, c, v) =>
        transform_adjacently_tagged_to_internally_tagged item t c v
      | none => item)
  | _ => members

/-- `AdjacentlyTaggedEnumInfo` (utils.rs 168-173): the reversal descriptor
recorded for the response reshaper. -/
structure AdjacentlyTaggedEnumInfo where
  tag_key : String
  content_key : String
  tag_values : List String
deriving Repr, DecidableEq

/-- The `oneOf` scan of `extract_adjacently_tagged_info` (utils.rs
178-201): keep the first detected tag/content keys and collect the tag
value of every detected member. -/
def extractOneOfFold : List Json → Option (String × String) → List String →
    Option (String × String) × List String
  | [], st, vals => (st, vals)
  | variant :: rest, st, vals =>
    match detect_adjacently_tagged_variant variant with
    | some (t, c, v) =>
      match st with
      | none => extractOneOfFold rest (some (t, c)) (vals ++ [v])
      | some tc => extractOneOfFold rest (some tc) (vals ++ [v])
    | none => extractOneOfFold rest st vals

/-- `extract_adjacently_tagged_info` applied to a schema whose `oneOf`
sits at the root (utils.rs 177-201).  The source additionally searches
`properties`/`items`/`allOf`/`anyOf` for the first nested `oneOf`
(utils.rs 203-230); the enum schemas considered here carry their `oneOf`
at the root, where the source and this embedding coincide. -/
def extract_adjacently_tagged_info (schema : Json) :
    Option AdjacentlyTaggedEnumInfo :=
  match schema with
  | .obj fs =>
    match jget fs "oneOf" with
    | some (.arr one_of) =>
      match extractOneOfFold one_of none [] with
      | (some (tag, content), tag_values) =>
        some ⟨tag, content, tag_values⟩
      | (none, _) => none
    | _ => none
  | _ => none

mutual

/-- `transform_internally_to_adjacently_tagged` (utils.rs 234-281): the
response reshaper.  An object whose tag-key value is one of the recorded
tag values has every other field moved into a fresh object stored under
the content key (tag-only objects are left as-is), and the function
returns without descending into the moved fields; any other object or
array is recursed into. -/
def transform_internally_to_adjacently_tagged
    (info : AdjacentlyTaggedEnumInfo) : Json → Json
  | .obj vobj =>
    match jget vobj info.tag_key with
    | some (.str tag_value) =>
      if tag_value ∈ info.tag_values then
        -- keys_to_move: every field except the tag
        let contentFields := vobj.filter (fun p => p.1 ≠ info.tag_key)
        if contentFields.isEmpty then .obj vobj
        else
          .obj (jinsert (vobj.filter (fun p => p.1 = info.tag_key))
            info.content_key (.obj contentFields))
      else .obj (titaFields info vobj)
    | _ => .obj (titaFields info vobj)
  | .arr xs => .arr (titaElems info xs)
  | j => j

/-- Recurse into the values of an object that did not match the tag. -/
def titaFields (info : AdjacentlyTaggedEnumInfo) :
    List (String × Json) → List (String × Json)
  | [] => []
  | (k, v) :: fs =>
    (k, transform_internally_to_adjacently_tagged info v) :: titaFields info fs

/-- Recurse into the elements of an array. -/
def titaElems (info : AdjacentlyTaggedEnumInfo) : List Json → List Json
  | [] => []
  | x :: xs =>
    transform_internally_to_adjacently_tagged info x :: titaElems info xs

end

/-! ## Error classifier (utils.rs 941-1073)

Strings are handled at the character level so that every function
evaluates inside the kernel; `to_lowercase`/`is_alphanumeric` act
ASCII-wise here, which coincides with the Rust originals on the ASCII
bodies and model names the classifier deals with. -/

/-- `str::to_lowercase`. -/
def strToLower (s : String) : String := ⟨s.data.map Char.toLower⟩

/-- Substring containment over character lists (`str::contains`). -/
def charsContain (hay needle : List Char) : Bool :=
  match hay with
  | [] => needle.isEmpty
  | _ :: t => needle.isPrefixOf hay || charsContain t needle

/-- `str::contains`. -/
def strContains (s sub : String) : Bool := charsContain s.data sub.data

/-- The suffix after the first occurrence of a character
(`text.find(quote)` followed by slicing past it). -/
def afterChar (c : Char) : List Char → Option (List Char)
  | [] => none
  | x :: xs => if x = c then some xs else afterChar c xs

/-- The characters before the first occurrence of a character
(`rest.find(quote)` followed by slicing up to it). -/
def beforeChar (c : Char) : List Char → Option (List Char)
  | [] => none
  | x :: xs => if x = c then some [] else (beforeChar c xs).map (x :: ·)

/-- Characters admitted in an extracted model name:
alphanumeric, `-`, `.` or `_`. -/
def isModelNameChar (c : Char) : Bool :=
  c.isAlphanum || c = '-' || c = '.' || c = '_'

/-- One iteration of the quote loop in `extract_model_from_error`:
take the text between the first two occurrences of the quote character
and accept it when it is longer than 2 and made of model-name
characters. -/
def tryQuote (quote : Char) (chars : List Char) : Option String :=
  match afterChar quote chars with
  | some rest =>
    match beforeChar quote rest with
    | some candidate =>
      if candidate.length > 2 && candidate.all isModelNameChar then
        some ⟨candidate⟩
      else none
    | none => none
  | none => none

/-- `extract_model_from_error` (utils.rs 1026-1045): first quoted
substring (single quotes tried before double quotes) that looks like a
model name. -/
def extract_model_from_error (error_text : String) : Option String :=
  match tryQuote (Char.ofNat 39) error_text.data with
  | some m => some m
  | none => tryQuote (Char.ofNat 34) error_text.data

/-- `suggest_model` (utils.rs 1048-1059). -/
def suggest_model (error_text : String) : Option String :=
  if strContains error_text "gpt" then some "gpt-5.2"
  else if strContains error_text "claude" || strContains error_text "sonnet" then
    some "claude-sonnet-4-5-20250929"
  else if strContains error_text "gemini" then some "gemini-3-flash-preview"
  else none

/-- UTF-8 byte length of a character list (`str::len`). -/
def charsByteLen (cs : List Char) : Nat := (cs.map Char.utf8Size).sum

/-- Longest prefix whose UTF-8 encoding fits in `maxLen` bytes
(`floor_char_boundary`). -/
def takeBytes (maxLen : Nat) : List Char → List Char
  | [] => []
  | c :: cs =>
    if c.utf8Size ≤ maxLen then c :: takeBytes (maxLen - c.utf8Size) cs
    else []

/-- `truncate_message` (utils.rs 1065-1073): cut the message at a valid
character boundary at or before `max_len` bytes and append `...`. -/
def truncate_message (msg : String) (max_len : Nat) : String :=
  if charsByteLen msg.data ≤ max_len then msg
  else String.mk (takeBytes max_len msg.data) ++ "..."

/-- `u64::from_str`: optional leading `+`, at least one digit, value
within the 64-bit range. -/
def parse_u64 (s : String) : Option Nat :=
  let cs :=
    match s.data with
    | c :: rest => if c = '+' then rest else s.data
    | [] => []
  if cs.isEmpty || !cs.all Char.isDigit then none
  else
    let n := cs.foldl (fun acc c => acc * 10 + (c.toNat - 48)) 0
    if n < 2 ^ 64 then some n else none

/-- `parse_retry_after` (utils.rs 951-958): the header value parsed as
whole seconds (HTTP-date values are not attempted). -/
def parse_retry_after (value : String) : Option Nat := parse_u64 value

/-- `ApiErrorKind` as constructed by `classify_api_error`; retry-after
durations are whole seconds. -/
inductive ApiErrorKind where
  | authenticationFailed
  | permissionDenied
  | invalidModel (model : String) (suggestion : Option String)
  | badRequest (details : String)
  | requestTooLarge
  | rateLimited (retry_after : Option Nat)
  | serverError (code : Nat)
  | serviceUnavailable
  | gatewayError (code : Nat)
  | other (code : Nat) (message : String)
deriving Repr, DecidableEq

/-- `classify_api_error` (utils.rs 961-1023): deterministic mapping from
HTTP status, body, parsed retry-after header and optional model hint to a
structured error kind. -/
def classify_api_error (status : Nat) (error_text : String)
    (retry_after : Option Nat) (model_hint : Option String) : ApiErrorKind :=
  let error_lower := strToLower error_text
  if status = 401 then .authenticationFailed
  else if status = 403 then .permissionDenied
  else if status = 404 then
    if strContains error_lower "model" then
      .invalidModel
        (match model_hint with
         | some s => s
         | none => (extract_model_from_error error_lower).getD "unknown")
        (suggest_model error_lower)
    else .other status error_text
  else if status = 400 then .badRequest (truncate_message error_text 200)
  else if status = 413 then .requestTooLarge
  else if status = 429 then .rateLimited retry_after
  else if status = 500 ∨ status = 502 then .serverError status
  else if status = 503 then .serviceUnavailable
  else if 520 ≤ status ∧ status ≤ 524 then .gatewayError status
  else .other status (truncate_message error_text 500)

/-! ## Retry coordinator (`generate_with_retry_with_history`, utils.rs 1127-1267)

The conversation history, the backend call, the sleeps and the number of
attempts are made observable; the backend (`generate_fn`, an `FnMut`) is
modelled as a function of the attempt index and the current history.
Transport errors (`RStructorError` variants other than `ValidationError`,
declared in the crate's error module) are abstracted by the two
observations the loop makes of them: `is_retryable()` and
`retry_delay()`. -/

/-- `ChatRole` (messages.rs); the coordinator only ever creates user and
assistant messages. -/
inductive ChatRole where
  | user
  | assistant
deriving Repr, DecidableEq

/-- `ChatMessage` (messages.rs); the media attachment list is never
touched by the retry coordinator and is omitted. -/
structure ChatMessage where
  role : ChatRole
  content : String
deriving Repr, DecidableEq

def ChatMessage.user (content : String) : ChatMessage := ⟨.user, content⟩

def ChatMessage.assistant (content : String) : ChatMessage :=
  ⟨.assistant, content⟩

/-- `ValidationFailureContext` (messages.rs 137-142). -/
structure ValidationFailureContext where
  error_message : String
  raw_response : String
deriving Repr, DecidableEq

/-- `RStructorError` as observed by the retry loop: a `ValidationError`
with its message, or any other error carrying the results of
`is_retryable()` and `retry_delay()`. -/
inductive RStructorError where
  | validationError (msg : String)
  | otherError (retryable : Bool) (retry_delay : Option Nat)
deriving Repr, DecidableEq

/-- Outcome of one `generate_fn` call. -/
inductive AttemptOutcome (T : Type) where
  | ok (result : T)
  | err (e : RStructorError) (ctx : Option ValidationFailureContext)

/-- Observables of one coordinator run: the result, the final
conversation history, the number of sleeps and the number of backend
calls. -/
structure RetryRun (T : Type) where
  result : Except RStructorError T
  messages : List ChatMessage
  sleeps : Nat
  calls : Nat

/-- The retry feedback message (utils.rs 1198-1201). -/
def error_feedback (error_message : String) : String :=
  "Your previous response contained validation errors. Please provide a complete, valid JSON response that includes ALL required fields and follows the schema exactly.\n\nError details:\n"
    ++ error_message ++
    "\n\nPlease fix the issues in your response. Make sure to:\n1. Include ALL required fields exactly as specified in the schema\n2. For enum fields, use EXACTLY one of the allowed values from the description\n3. CRITICAL: For arrays where items.type = \x27object\x27:\n   - You MUST provide an array of OBJECTS, not strings or primitive values\n   - Each object must be a complete JSON object with all its required fields\n   - Include multiple items (at least 2-3) in arrays of objects\n4. Verify all nested objects have their complete structure\n5. Follow ALL type specifications (string, number, boolean, array, object)"

/-- The attempt loop of `generate_with_retry_with_history` (utils.rs
1157-1263).  `remaining` counts the attempts still available
(`max_attempts - attempt`), so the last attempt is `remaining = 1`; the
`remaining = 0` equation corresponds to the `unreachable!()` after the
loop and is never taken from the entry point. -/
def retryLoop {T : Type} (gen : Nat → List ChatMessage → AttemptOutcome T) :
    Nat → Nat → List ChatMessage → Nat → Nat → RetryRun T
  | _, 0, messages, sleeps, calls =>
    ⟨.error (.validationError "unreachable"), messages, sleeps, calls⟩
  | attempt, remaining + 1, messages, sleeps, calls =>
    match gen attempt messages with
    | .ok t => ⟨.ok t, messages, sleeps, calls + 1⟩
    | .err e ctx =>
      match e with
      | .validationError msg =>
        if remaining = 0 then
          ⟨.error (.validationError msg), messages, sleeps, calls + 1⟩
        else
          match ctx with
          | some c =>
            retryLoop gen (attempt + 1) remaining
              (messages ++ [ChatMessage.assistant c.raw_response,
                ChatMessage.user (error_feedback c.error_message)])
              (sleeps + 1) (calls + 1)
          | none =>
            -- no raw-response context: retry without mutating history
            retryLoop gen (attempt + 1) remaining messages
              (sleeps + 1) (calls + 1)
      | .otherError retryable delay =>
        if retryable ∧ remaining ≠ 0 then
          -- API errors do not modify the conversation history
          retryLoop gen (attempt + 1) remaining messages
            (sleeps + 1) (calls + 1)
        else
          ⟨.error (.otherError retryable delay), messages, sleeps, calls + 1⟩

/-- `generate_with_retry_with_history` (utils.rs 1127-1267): with no
retries configured (`None` or `0`) run a single attempt on
`[User(prompt)]` and surface the error verbatim; otherwise run the loop
with `max_attempts = max_retries + 1`. -/
def generate_with_retry_with_history {T : Type}
    (gen : Nat → List ChatMessage → AttemptOutcome T) (prompt : String)
    (max_retries : Option Nat) : RetryRun T :=
  match max_retries with
  | none =>
    match gen 0 [ChatMessage.user prompt] with
    | .ok t => ⟨.ok t, [ChatMessage.user prompt], 0, 1⟩
    | .err e _ => ⟨.error e, [ChatMessage.user prompt], 0, 1⟩
  | some mr =>
    if mr = 0 then
      match gen 0 [ChatMessage.user prompt] with
      | .ok t => ⟨.ok t, [ChatMessage.user prompt], 0, 1⟩
      | .err e _ => ⟨.error e, [ChatMessage.user prompt], 0, 1⟩
    else
      retryLoop gen 0 (mr + 1) [ChatMessage.user prompt] 0 0

/-- No two consecutive messages share a role. -/
def alternatingRoles : List ChatMessage → Bool
  | [] => true
  | [_] => true
  | m1 :: m2 :: rest => decide (m1.role ≠ m2.role) && alternatingRoles (m2 :: rest)

/-- The last message is a user message. -/
def endsWithUser : List ChatMessage → Bool
  | [] => false
  | [m] => decide (m.role = ChatRole.user)
  | _ :: m :: rest => endsWithUser (m :: rest)

/-- A validation failure that carries raw-response context. -/
def isValidationFailureWithCtx {T : Type} : AttemptOutcome T → Bool
  | .err (.validationError _) (some _) => true
  | _ => false

/-! ## Derive-side type model (rstructor_derive/src/type_utils.rs)

`syn::Type` is embedded as far as the schema generators inspect it: a
path type keeps its segment names and angle-bracketed type arguments, a
tuple keeps its element types, and every other `syn` variant is collapsed
into `other` (all the inspection helpers below fall through to their
defaults on it, exactly as the source does on non-path types). -/

inductive RustType where
  | path (segs : List String) (args : List RustType)
  | tuple (elems : List RustType)
  | other
deriving Repr, BEq

/-- `type_path.path.segments.first()`'s identifier. -/
def firstSeg : RustType → Option String
  | .path segs _ => segs.head?
  | _ => none

/-- `is_option_type` (type_utils.rs 112-119). -/
def is_option_type (ty : RustType) : Bool :=
  firstSeg ty = some "Option"

/-- `get_option_inner_type` (type_utils.rs 122-132): the argument of
`Option<T>`, or the type itself. -/
def get_option_inner_type (ty : RustType) : RustType :=
  match ty with
  | .path segs (inner :: _) =>
    if segs.head? = some "Option" then inner else ty
  | _ => ty

/-- Collection type names treated as arrays. -/
def arrayTypeNames : List String := ["Vec", "Array", "HashSet", "BTreeSet"]

/-- Integer type names. -/
def intTypeNames : List String :=
  ["i8", "i16", "i32", "i64", "i128", "isize", "u8", "u16", "u32", "u64",
   "u128", "usize"]

/-- `get_schema_type_from_rust_type` (type_utils.rs 155-187). -/
def get_schema_type_from_rust_type : RustType → String
  | .path segs args =>
    match segs.head? with
    | some n =>
      if n ∈ ["String", "str", "char"] then "string"
      else if n = "bool" then "boolean"
      else if n ∈ intTypeNames then "integer"
      else if n ∈ ["f32", "f64"] then "number"
      else if n ∈ arrayTypeNames then "array"
      else if n ∈ ["HashMap", "BTreeMap"] then "object"
      else if n ∈ ["DateTime", "NaiveDateTime", "NaiveDate", "Date", "Utc",
          "Local"] then "string"
      else if n ∈ ["Uuid", "uuid::Uuid"] then "string"
      else if n = "Option" then
        match args with
        | inner :: _ => get_schema_type_from_rust_type inner
        | [] => "null"
      else "object"
    | none => "object"
  | _ => "object"

/-- `get_array_inner_type` (type_utils.rs 190-204). -/
def get_array_inner_type (ty : RustType) : Option RustType :=
  match ty with
  | .path segs (inner :: _) =>
    match segs.head? with
    | some n => if n ∈ arrayTypeNames then some inner else none
    | none => none
  | _ => none

/-- `is_array_type` (type_utils.rs 207-215). -/
def is_array_type (ty : RustType) : Bool :=
  match firstSeg ty with
  | some n => n ∈ arrayTypeNames
  | none => false

/-- `is_map_type` (type_utils.rs 218-226). -/
def is_map_type (ty : RustType) : Bool :=
  match firstSeg ty with
  | some n => n ∈ (["HashMap", "BTreeMap"] : List String)
  | none => false

/-- `get_map_types` (type_utils.rs 229-246). -/
def get_map_types (ty : RustType) : Option (RustType × RustType) :=
  match ty with
  | .path segs (keyTy :: valTy :: _) =>
    match segs.head? with
    | some n =>
      if n ∈ (["HashMap", "BTreeMap"] : List String) then some (keyTy, valTy)
      else none
    | none => none
  | _ => none

/-- `is_box_type` (type_utils.rs 249-256). -/
def is_box_type (ty : RustType) : Bool :=
  firstSeg ty = some "Box"

/-- `get_box_inner_type` (type_utils.rs 259-269). -/
def get_box_inner_type (ty : RustType) : Option RustType :=
  match ty with
  | .path segs (inner :: _) =>
    if segs.head? = some "Box" then some inner else none
  | _ => none

/-- `is_json_value_type` (type_utils.rs 272-285): the joined path is
`Value` or `serde_json::Value`. -/
def is_json_value_type (ty : RustType) : Bool :=
  match ty with
  | .path segs _ =>
    String.intercalate "::" segs = "Value" ||
      String.intercalate "::" segs = "serde_json::Value"
  | _ => false

/-- `is_tuple_type` (type_utils.rs 288-290). -/
def is_tuple_type : RustType → Bool
  | .tuple _ => true
  | _ => false

/-- `get_tuple_element_types` (type_utils.rs 293-298). -/
def get_tuple_element_types : RustType → Option (List RustType)
  | .tuple elems => some elems
  | _ => none

/-- `get_core_type_name` (type_utils.rs 302-328): the terminal type name
after unwrapping `Option`/`Box` and the collection types.  A tuple type is
not a `Type::Path`, so it yields `none`. -/
def get_core_type_name : RustType → Option String
  | .path segs args =>
    match segs.head? with
    | some n =>
      if n = "Option" ∨ n = "Box" then
        match args with
        | inner :: _ => get_core_type_name inner
        | [] => none
      else if n ∈ arrayTypeNames then
        match args with
        | inner :: _ => get_core_type_name inner
        | [] => none
      else some n
    | none => none
  | _ => none

/-- `is_self_reference` (type_utils.rs 332-334). -/
def is_self_reference (ty : RustType) (struct_name : String) : Bool :=
  get_core_type_name ty = some struct_name

/-- Iterated application of single-argument wrapper types:
`wrapChain ["Option", "Vec"] t` is `Option<Vec<t>>`. -/
def wrapChain : List String → RustType → RustType
  | [], t => t
  | w :: ws, t => .path [w] [wrapChain ws t]

/-! ## Rename rules (rstructor_derive/src/generators/struct_schema.rs 528-606) -/

/-- `pascal_to_snake_case` worker: insert `_` before every uppercase
character that is not the first, lowercasing everything. -/
def pascalToSnakeAux : Nat → List Char → List Char
  | _, [] => []
  | i, c :: cs =>
    (if c.isUpper && i > 0 then ['_', c.toLower] else [c.toLower]) ++
      pascalToSnakeAux (i + 1) cs

/-- `pascal_to_snake_case` (struct_schema.rs 597-606). -/
def pascal_to_snake_case (name : String) : String :=
  ⟨pascalToSnakeAux 0 name.data⟩

/-- Split a character list on a separator (`str::split`). -/
def splitOnChar (sep : Char) : List Char → List (List Char)
  | [] => [[]]
  | c :: cs =>
    match splitOnChar sep cs with
    | r :: rs => if c = sep then [] :: r :: rs else (c :: r) :: rs
    | [] => if c = sep then [[], []] else [[c]]

/-- Capitalise the first character, lowercase the rest (camelCase part). -/
def capFirstLowerRest : List Char → List Char
  | [] => []
  | c :: cs => c.toUpper :: cs.map Char.toLower

/-- Capitalise the first character, keep the rest (PascalCase part). -/
def capFirst : List Char → List Char
  | [] => []
  | c :: cs => c.toUpper :: cs

/-- `apply_rename_all` (struct_schema.rs 528-594). -/
def apply_rename_all (name rule : String) : String :=
  if rule = "lowercase" then strToLower name
  else if rule = "UPPERCASE" then ⟨name.data.map Char.toUpper⟩
  else if rule = "camelCase" then
    if name.data.contains '_' then
      match splitOnChar '_' name.data with
      | [] => name
      | p0 :: rest =>
        ⟨p0.map Char.toLower ++ (rest.map capFirstLowerRest).flatten⟩
    else
      match name.data with
      | [] => name
      | c :: cs => ⟨c.toLower :: cs⟩
  else if rule = "PascalCase" then
    ⟨((splitOnChar '_' name.data).map capFirst).flatten⟩
  else if rule = "snake_case" then pascal_to_snake_case name
  else if rule = "SCREAMING_SNAKE_CASE" then
    ⟨(pascal_to_snake_case name).data.map Char.toUpper⟩
  else if rule = "kebab-case" then
    ⟨(pascal_to_snake_case name).data.map (fun c => if c = '_' then '-' else c)⟩
  else if rule = "SCREAMING-KEBAB-CASE" then
    ⟨(pascal_to_snake_case name).data.map
      (fun c => if c = '_' then '-' else c.toUpper)⟩
  else name

/-! ## Struct schema generator (rstructor_derive/src/generators/struct_schema.rs)

The macro emits code that builds the schema at runtime; the embedding maps
a struct descriptor directly to that JSON value.  `env` stands for
`<T as SchemaType>::schema().to_json()` of other types, which the
generated code calls when it inlines a nested type's schema. -/

/-- A named struct field as the macro sees it: identifier, type, and the
`#[serde(rename)]`/`#[llm(...)]` attributes. -/
structure FieldDesc where
  name : String
  ty : RustType
  serde_rename : Option String
  description : Option String
  example_value : Option Json
  examples_array : List Json
deriving Repr

/-- A struct container: name, `#[serde(rename_all)]`, container-level
`#[llm(...)]` attributes, and the named fields. -/
structure StructDesc where
  name : String
  serde_rename_all : Option String
  description : Option String
  title : Option String
  examples : List Json
  fields : List FieldDesc
deriving Repr

/-- Effective wire name of a field (struct_schema.rs 40-47): field-level
rename, else the container rename rule applied to the identifier, else the
identifier. -/
def effectiveFieldName (d : StructDesc) (f : FieldDesc) : String :=
  match f.serde_rename with
  | some r => r
  | none =>
    match d.serde_rename_all with
    | some rule => apply_rename_all f.name rule
    | none => f.name

/-- Items schema generated for date-typed values. -/
def dateSchemaFields : List (String × Json) :=
  [("type", .str "string"), ("format", .str "date-time"),
   ("description", .str "ISO-8601 formatted date and time")]

/-- Items schema generated for UUID-typed values. -/
def uuidSchemaFields : List (String × Json) :=
  [("type", .str "string"), ("format", .str "uuid"),
   ("description", .str "UUID identifier string")]

/-- Library type names treated as dates (struct_schema.rs 65-68). -/
def isDateTypeName (n : Option String) : Bool :=
  n ∈ ([some "DateTime", some "NaiveDateTime", some "NaiveDate",
    some "Date"] : List (Option String))

/-- The property map built for one field (struct_schema.rs 74-363): the
if-else chain over the field's type shape. -/
def fieldProps (env : RustType → Json) (structName : String)
    (f : FieldDesc) : List (String × Json) :=
  let ty := f.ty
  let is_optional := is_option_type ty
  let schema_type := get_schema_type_from_rust_type ty
  let type_name := firstSeg ty
  if isDateTypeName type_name then dateSchemaFields
  else if type_name = some "Uuid" then uuidSchemaFields
  else if is_array_type ty ||
      (is_optional && is_array_type (get_option_inner_type ty)) then
    let actual :=
      if is_optional && is_array_type (get_option_inner_type ty) then
        get_option_inner_type ty
      else ty
    match get_array_inner_type actual with
    | some inner =>
      let inner_schema_type := get_schema_type_from_rust_type inner
      if isDateTypeName (firstSeg inner) then
        [("type", .str schema_type), ("items", .obj dateSchemaFields)]
      else if firstSeg inner = some "Uuid" then
        [("type", .str schema_type), ("items", .obj uuidSchemaFields)]
      else if inner_schema_type = "object" then
        if is_self_reference inner structName then
          [("type", .str schema_type),
           ("items", .obj [("$ref", .str ("#/$defs/" ++ structName))])]
        else
          [("type", .str schema_type), ("items", env inner)]
      else
        [("type", .str schema_type),
         ("items", .obj [("type", .str inner_schema_type)])]
    | none =>
      [("type", .str schema_type), ("items", .obj [("type", .str "string")])]
  else if is_json_value_type ty ||
      (is_optional && is_json_value_type (get_option_inner_type ty)) then
    []
  else if is_map_type ty ||
      (is_optional && is_map_type (get_option_inner_type ty)) then
    let actual := if is_optional then get_option_inner_type ty else ty
    match get_map_types actual with
    | some (_, valTy) =>
      [("type", .str "object"), ("additionalProperties", env valTy)]
    | none => [("type", .str "object")]
  else if is_box_type ty ||
      (is_optional && is_box_type (get_option_inner_type ty)) then
    let actual := if is_optional then get_option_inner_type ty else ty
    match get_box_inner_type actual with
    | some inner =>
      let inner_schema_type := get_schema_type_from_rust_type inner
      if inner_schema_type = "object" then
        match env inner with
        | .obj m => m
        | _ => [("type", .str "object")]
      else [("type", .str inner_schema_type)]
    | none => [("type", .str "object")]
  else if is_tuple_type ty ||
      (is_optional && is_tuple_type (get_option_inner_type ty)) then
    let actual := if is_optional then get_option_inner_type ty else ty
    match get_tuple_element_types actual with
    | some elems =>
      [("type", .str "array"),
       ("prefixItems", .arr (elems.map (fun e =>
          if get_schema_type_from_rust_type e = "object" then env e
          else .obj [("type", .str (get_schema_type_from_rust_type e))]))),
       ("minItems", .num elems.length), ("maxItems", .num elems.length)]
    | none => [("type", .str "array")]
  else if type_name.isSome && schema_type = "object" then
    let actual := if is_optional then get_option_inner_type ty else ty
    match env actual with
    | .obj m => m
    | _ => [("type", .str "object")]
  else [("type", .str schema_type)]

/-- A field's property map with the attribute-driven insertions
(struct_schema.rs 366-393): description, single example, examples. -/
def fieldPropsWithAttrs (env : RustType → Json) (structName : String)
    (f : FieldDesc) : List (String × Json) :=
  let p := fieldProps env structName f
  let p := match f.description with
    | some d => jinsert p "description" (.str d)
    | none => p
  let p := match f.example_value with
    | some ex => jinsert p "example" ex
    | none => p
  if f.examples_array.isEmpty then p
  else jinsert p "examples" (.arr f.examples_array)

/-- The object schema built for a struct (struct_schema.rs 455-516 without
the `$defs` wrapping): base object, container attributes, per-field
properties, and the `required` list of non-`Option` fields. -/
def structObjectSchema (env : RustType → Json) (d : StructDesc) : Json :=
  let base : List (String × Json) :=
    [("type", .str "object"), ("title", .str d.name), ("properties", .obj [])]
  let base := match d.description with
    | some desc => jinsert base "description" (.str desc)
    | none => base
  let base := match d.title with
    | some t => jinsert base "title" (.str t)
    | none => base
  let base := if d.examples.isEmpty then base
    else jinsert base "examples" (.arr d.examples)
  let props := d.fields.foldl
    (fun acc f => jinsert acc (effectiveFieldName d f)
      (.obj (fieldPropsWithAttrs env d.name f))) []
  let withProps := jinsert base "properties" (.obj props)
  .obj (jinsert withProps "required"
    (.arr ((d.fields.filter (fun f => !is_option_type f.ty)).map
      (fun f => .str (effectiveFieldName d f)))))

/-- `generate_struct_schema` (struct_schema.rs 14-525): when some field is
a self-reference the object schema is lifted into `$defs` and the root
becomes a `$ref` to it; otherwise the object schema is the result. -/
def generate_struct_schema (env : RustType → Json) (d : StructDesc) : Json :=
  if d.fields.any (fun f => is_self_reference f.ty d.name) then
    .obj [("$defs", .obj [(d.name, structObjectSchema env d)]),
          ("$ref", .str ("#/$defs/" ++ d.name))]
  else structObjectSchema env d

/-- The `FileNode` struct of tests/recursive_structures_tests.rs:
`name: String`, `is_dir: bool`, `children: Option<Vec<Box<FileNode>>>`,
`size: Option<u64>`, with `#[llm(description)]` attributes. -/
def fileNodeDesc : StructDesc :=
  { name := "FileNode"
    serde_rename_all := none
    description := some "A node in a file system tree"
    title := none
    examples := []
    fields :=
      [⟨"name", .path ["String"] [], none, none, none, []⟩,
       ⟨"is_dir", .path ["bool"] [], none,
         some "If true, this is a directory and can have children", none, []⟩,
       ⟨"children",
         .path ["Option"] [.path ["Vec"] [.path ["Box"] [.path ["FileNode"] []]]],
         none, some "Children nodes if this is a directory", none, []⟩,
       ⟨"size", .path ["Option"] [.path ["u64"] []], none,
         some "Size in bytes if this is a file", none, []⟩] }

/-- A trivial `SchemaType::schema()` environment; `FileNode` has no field
that consults it. -/
def trivEnv : RustType → Json := fun _ => .obj [("type", .str "object")]

/-! ## Runtime evaluation of the generated schema code

`generate_struct_schema` above abstracts every nested
`<T as SchemaType>::schema()` call as a total `env`.  The generated code,
however, CALLS the nested type's `schema()` at runtime; when the nested
type is itself a derived struct, that call evaluates the nested struct's
own generated body.  Only the array-items branch guards this call with an
`is_self_reference` check and emits `$ref` instead (struct_schema.rs
165-176); the map branch (242), the `Box` branch (266), the tuple-element
branches (308) and the nested-struct branch (345) call `schema()`
unconditionally.  The `RT` functions below model this runtime
evaluation: `sch ty` stands for the evaluation of a nested
`<ty as SchemaType>::schema().to_json()` call limited to a given
recursion depth, and `none` means the call did not complete within that
depth.  `schema_rt` ties the knot over a world `w` of derived struct
descriptors, spending one unit of fuel per nested derived-struct call: a
computation whose value is `none` at every fuel is one that never
returns. -/

/-- `nested_schema.to_json()` destructured as a property map
(struct_schema.rs 268-274 and 348-354): a completed object's map is taken
over, any other completed value falls back to `{"type": "object"}`, and
an uncompleted call propagates. -/
def objPropsOf : Option Json → Option (List (String × Json))
  | none => none
  | some (.obj m) => some m
  | some _ => some [("type", .str "object")]

/-- Runtime sequencing of a tuple field's element-schema calls
(struct_schema.rs 317-322): the vector of element schemas exists only
when every element's call completed. -/
def seqElems : List (Option Json) → Option (List Json)
  | [] => some []
  | none :: _ => none
  | some x :: xs =>
    match seqElems xs with
    | some ys => some (x :: ys)
    | none => none

/-- One tuple element's schema (struct_schema.rs 302-316): a nested
`schema()` call for object-typed elements, an inline primitive schema
otherwise. -/
def tupleElemRT (sch : RustType → Option Json) (e : RustType) : Option Json :=
  if get_schema_type_from_rust_type e = "object" then sch e
  else some (.obj [("type", .str (get_schema_type_from_rust_type e))])

/-- `fieldProps` with the nested `schema()` calls evaluated by `sch`
(struct_schema.rs 74-363): branch for branch the same if-else chain,
with an uncompleted nested call propagated.  Note which branches call
`sch`: array items only when the inner object type is NOT a
self-reference, but the map value, `Box` inner, tuple elements and
nested-struct branches always. -/
def fieldPropsRT (sch : RustType → Option Json) (structName : String)
    (f : FieldDesc) : Option (List (String × Json)) :=
  let ty := f.ty
  let is_optional := is_option_type ty
  let schema_type := get_schema_type_from_rust_type ty
  let type_name := firstSeg ty
  if isDateTypeName type_name then some dateSchemaFields
  else if type_name = some "Uuid" then some uuidSchemaFields
  else if is_array_type ty ||
      (is_optional && is_array_type (get_option_inner_type ty)) then
    let actual :=
      if is_optional && is_array_type (get_option_inner_type ty) then
        get_option_inner_type ty
      else ty
    match get_array_inner_type actual with
    | some inner =>
      let inner_schema_type := get_schema_type_from_rust_type inner
      if isDateTypeName (firstSeg inner) then
        some [("type", .str schema_type), ("items", .obj dateSchemaFields)]
      else if firstSeg inner = some "Uuid" then
        some [("type", .str schema_type), ("items", .obj uuidSchemaFields)]
      else if inner_schema_type = "object" then
        if is_self_reference inner structName then
          some [("type", .str schema_type),
            ("items", .obj [("$ref", .str ("#/$defs/" ++ structName))])]
        else
          match sch inner with
          | some j => some [("type", .str schema_type), ("items", j)]
          | none => none
      else
        some [("type", .str schema_type),
          ("items", .obj [("type", .str inner_schema_type)])]
    | none =>
      some [("type", .str schema_type),
        ("items", .obj [("type", .str "string")])]
  else if is_json_value_type ty ||
      (is_optional && is_json_value_type (get_option_inner_type ty)) then
    some []
  else if is_map_type ty ||
      (is_optional && is_map_type (get_option_inner_type ty)) then
    let actual := if is_optional then get_option_inner_type ty else ty
    match get_map_types actual with
    | some (_, valTy) =>
      match sch valTy with
      | some j => some [("type", .str "object"), ("additionalProperties", j)]
      | none => none
    | none => some [("type", .str "object")]
  else if is_box_type ty ||
      (is_optional && is_box_type (get_option_inner_type ty)) then
    let actual := if is_optional then get_option_inner_type ty else ty
    match get_box_inner_type actual with
    | some inner =>
      let inner_schema_type := get_schema_type_from_rust_type inner
      if inner_schema_type = "object" then objPropsOf (sch inner)
      else some [("type", .str inner_schema_type)]
    | none => some [("type", .str "object")]
  else if is_tuple_type ty ||
      (is_optional && is_tuple_type (get_option_inner_type ty)) then
    let actual := if is_optional then get_option_inner_type ty else ty
    match get_tuple_element_types actual with
    | some elems =>
      match seqElems (elems.map (tupleElemRT sch)) with
      | some items =>
        some [("type", .str "array"), ("prefixItems", .arr items),
          ("minItems", .num elems.length), ("maxItems", .num elems.length)]
      | none => none
    | none => some [("type", .str "array")]
  else if type_name.isSome && schema_type = "object" then
    let actual := if is_optional then get_option_inner_type ty else ty
    objPropsOf (sch actual)
  else some [("type", .str schema_type)]

/-- `fieldPropsWithAttrs` over the runtime field properties
(struct_schema.rs 366-393). -/
def fieldPropsWithAttrsRT (sch : RustType → Option Json) (structName : String)
    (f : FieldDesc) : Option (List (String × Json)) :=
  match fieldPropsRT sch structName f with
  | none => none
  | some p =>
    let p := match f.description with
      | some d => jinsert p "description" (.str d)
      | none => p
    let p := match f.example_value with
      | some ex => jinsert p "example" ex
      | none => p
    some (if f.examples_array.isEmpty then p
      else jinsert p "examples" (.arr f.examples_array))

/-- The property-setters loop over the fields (struct_schema.rs 497-503):
the generated code runs the setters in sequence, so the properties map
exists only when every field's setter completed. -/
def fieldsFoldRT (sch : RustType → Option Json) (d : StructDesc) :
    List (String × Json) → List FieldDesc → Option (List (String × Json))
  | acc, [] => some acc
  | acc, f :: fs =>
    match fieldPropsWithAttrsRT sch d.name f with
    | none => none
    | some p =>
      fieldsFoldRT sch d (jinsert acc (effectiveFieldName d f) (.obj p)) fs

/-- `structObjectSchema` with the nested calls evaluated by `sch`:
identical assembly (struct_schema.rs 455-516 without the `$defs`
wrapping), with a failed field setter propagated. -/
def structObjectSchemaRT (sch : RustType → Option Json) (d : StructDesc) :
    Option Json :=
  match fieldsFoldRT sch d [] d.fields with
  | none => none
  | some props =>
    let base : List (String × Json) :=
      [("type", .str "object"), ("title", .str d.name),
       ("properties", .obj [])]
    let base := match d.description with
      | some desc => jinsert base "description" (.str desc)
      | none => base
    let base := match d.title with
      | some t => jinsert base "title" (.str t)
      | none => base
    let base := if d.examples.isEmpty then base
      else jinsert base "examples" (.arr d.examples)
    let withProps := jinsert base "properties" (.obj props)
    some (.obj (jinsert withProps "required"
      (.arr ((d.fields.filter (fun f => !is_option_type f.ty)).map
        (fun f => .str (effectiveFieldName d f))))))

/-- `generate_struct_schema` with the nested calls evaluated by `sch`
(struct_schema.rs 14-525): the object schema is computed first; when it
completes and some field is a self-reference it is lifted into `$defs`
with a `$ref` root. -/
def generate_struct_schemaRT (sch : RustType → Option Json)
    (d : StructDesc) : Option Json :=
  match structObjectSchemaRT sch d with
  | none => none
  | some s =>
    if d.fields.any (fun f => is_self_reference f.ty d.name) then
      some (.obj [("$defs", .obj [(d.name, s)]),
        ("$ref", .str ("#/$defs/" ++ d.name))])
    else some s

/-- Fuel-limited runtime evaluation of `<ty as SchemaType>::schema()`
over a world `w` of derived struct descriptors: a derived struct's call
evaluates that struct's whole generated body, spending one fuel unit;
a type outside the world is an opaque terminating call abstracted by
`ext`.  `none` at fuel `n` means the call does not return within `n`
nested derived-struct calls; `none` at EVERY fuel is divergence. -/
def schema_rt (w : String → Option StructDesc) (ext : RustType → Json) :
    Nat → RustType → Option Json
  | 0, ty =>
    match firstSeg ty with
    | some n =>
      match w n with
      | some _ => none
      | none => some (ext ty)
    | none => some (ext ty)
  | fuel + 1, ty =>
    match firstSeg ty with
    | some n =>
      match w n with
      | some d => generate_struct_schemaRT (schema_rt w ext fuel) d
      | none => some (ext ty)
    | none => some (ext ty)

/-- `struct R { next: Option<Box<R>> }`: self-referential through
`Option`/`Box` only — no array layer, so the field's schema goes through
the unguarded `Box` branch. -/
def rSelfDesc : StructDesc :=
  { name := "R"
    serde_rename_all := none
    description := none
    title := none
    examples := []
    fields := [⟨"next",
      .path ["Option"] [.path ["Box"] [.path ["R"] []]],
      none, none, none, []⟩] }

/-- The world holding only `R`. -/
def rWorld : String → Option StructDesc :=
  fun n => if n = "R" then some rSelfDesc else none

/-- The world holding only `FileNode`. -/
def fnWorld : String → Option StructDesc :=
  fun n => if n = "FileNode" then some fileNodeDesc else none

/-- The fully evaluated `FileNode` object schema body. -/
def fileNodeBody : Json :=
  .obj [("type", .str "object"),
    ("title", .str "FileNode"),
    ("properties", .obj
      [("name", .obj [("type", .str "string")]),
       ("is_dir", .obj [("type", .str "boolean"),
         ("description",
          .str "If true, this is a directory and can have children")]),
       ("children", .obj [("type", .str "array"),
         ("items", .obj [("$ref", .str "#/$defs/FileNode")]),
         ("description", .str "Children nodes if this is a directory")]),
       ("size", .obj [("type", .str "integer"),
         ("description", .str "Size in bytes if this is a file")])]),
    ("description", .str "A node in a file system tree"),
    ("required", .arr [.str "name", .str "is_dir"])]

/-- The fully evaluated `FileNode` schema: `$defs` body plus `$ref`
root. -/
def fileNodeSchema : Json :=
  .obj [("$defs", .obj [("FileNode", fileNodeBody)]),
    ("$ref", .str "#/$defs/FileNode")]

/-! ## Adjacent-tagged enum schemas (rstructor_derive/src/generators/enum_schema.rs 273-493)

The builders below produce exactly the JSON the macro-generated code
constructs at runtime for an `Adjacent{tag, content}` enum variant of
each shape (unit, single unnamed field, multiple unnamed fields, named
fields). -/

/-- The tag property: `{"type": "string", "enum": [variant]}`. -/
def adjTagSchema (variant : String) : Json :=
  .obj [("type", .str "string"), ("enum", .arr [.str variant])]

/-- Adjacent unit variant (enum_schema.rs 281-308). -/
def adjacentUnitVariant (tag variant desc : String) : Json :=
  .obj [("type", .str "object"),
        ("properties", .obj [(tag, adjTagSchema variant)]),
        ("required", .arr [.str tag]),
        ("description", .str desc),
        ("additionalProperties", .bool false)]

/-- Adjacent tuple variant with a single unnamed field (enum_schema.rs
317-352): the content property is the field's own schema. -/
def adjacentSingleVariant (tag content variant desc : String)
    (fieldSchema : Json) (contentRequired : Bool) : Json :=
  .obj [("type", .str "object"),
        ("properties", .obj [(tag, adjTagSchema variant),
          (content, fieldSchema)]),
        ("required", .arr (if contentRequired then [.str tag, .str content]
          else [.str tag])),
        ("description", .str desc),
        ("additionalProperties", .bool false)]

/-- Adjacent tuple variant with several unnamed fields (enum_schema.rs
353-399): the content property is a fixed-length array schema whose
`items` is the list of element schemas. -/
def adjacentMultiVariant (tag content variant desc : String)
    (fieldSchemas : List Json) : Json :=
  .obj [("type", .str "object"),
        ("properties", .obj [(tag, adjTagSchema variant),
          (content, .obj [("type", .str "array"),
            ("items", .arr fieldSchemas),
            ("minItems", .num fieldSchemas.length),
            ("maxItems", .num fieldSchemas.length)])]),
        ("required", .arr [.str tag, .str content]),
        ("description", .str desc),
        ("additionalProperties", .bool false)]

/-- Adjacent struct variant with named fields (enum_schema.rs 401-488):
the content property is an object schema over the fields. -/
def adjacentNamedVariant (tag content variant desc : String)
    (fields : List (String × Json)) (reqd : List String) : Json :=
  .obj [("type", .str "object"),
        ("properties", .obj [(tag, adjTagSchema variant),
          (content, .obj ([("type", .str "object"),
            ("properties", .obj fields)] ++
            (if reqd.isEmpty then []
             else [("required", .arr (reqd.map .str))]) ++
            [("additionalProperties", .bool false)]))]),
        ("required", .arr [.str tag, .str content]),
        ("description", .str desc),
        ("additionalProperties", .bool false)]

/-- Primitive field schema with a description
(`generate_field_schema`, enum_schema.rs 1070-1086). -/
def primFieldSchema (ty desc : String) : Json :=
  .obj [("type", .str ty), ("description", .str desc)]

/-- Primitive field schema without a description (tuple-variant fields). -/
def primFieldSchemaBare (ty : String) : Json :=
  .obj [("type", .str ty)]

/-! ### The `TaskResult` enum of tests/complex_enum_integration_tests.rs

`#[serde(tag = "status", content = "data")]` with variants
`Success { output: String, tokens_used: u32 }`,
`Failure { error_code: i32, reason: String }` and the unit `Pending`. -/

def taskSuccessVariant : Json :=
  adjacentNamedVariant "status" "data" "Success" "Task completed successfully"
    [("output", primFieldSchema "string" "Field output"),
     ("tokens_used", primFieldSchema "integer" "Field tokens_used")]
    ["output", "tokens_used"]

def taskFailureVariant : Json :=
  adjacentNamedVariant "status" "data" "Failure"
    "Task failed with an error message"
    [("error_code", primFieldSchema "integer" "Field error_code"),
     ("reason", primFieldSchema "string" "Field reason")]
    ["error_code", "reason"]

def taskPendingVariant : Json :=
  adjacentUnitVariant "status" "Pending" "Task is still in progress"

def taskResultVariants : List Json :=
  [taskSuccessVariant, taskFailureVariant, taskPendingVariant]

/-- The synthesized `TaskResult` schema root (enum_schema.rs 919-936). -/
def taskResultSchema : Json :=
  .obj [("oneOf", .arr taskResultVariants), ("title", .str "TaskResult")]

/-- The reversal descriptor the Gemini backend extracts for `TaskResult`
(the unit variant contributes no tag value). -/
def taskResultInfo : AdjacentlyTaggedEnumInfo :=
  ⟨"status", "data", ["Success", "Failure"]⟩

/-! ### An Adjacent enum exercising all four variant kinds

Tag `status`, content `data`; variants `Pending` (unit), `Note(String)`
(single unnamed field), `Pair(i32, String)` (multiple unnamed fields) and
`Named { a: i32 }` (named fields). -/

def mixedPendingVariant : Json :=
  adjacentUnitVariant "status" "Pending" "Variant Pending"

def mixedNoteVariant : Json :=
  adjacentSingleVariant "status" "data" "Note" "Variant Note"
    (primFieldSchemaBare "string") true

def mixedPairVariant : Json :=
  adjacentMultiVariant "status" "data" "Pair" "Variant Pair"
    [primFieldSchemaBare "integer", primFieldSchemaBare "string"]

def mixedNamedVariant : Json :=
  adjacentNamedVariant "status" "data" "Named" "Variant Named"
    [("a", primFieldSchema "integer" "Field a")] ["a"]

def mixedVariants : List Json :=
  [mixedPendingVariant, mixedNoteVariant, mixedPairVariant, mixedNamedVariant]

def mixedSchema : Json :=
  .obj [("oneOf", .arr mixedVariants), ("title", .str "Mixed")]

/-- The per-entry transformation the strict adapter applies inside an
object node, pulled out of `strictFields` for reasoning. -/
def strictDispatch (k : String) (v : Json) : Json :=
  if k ∈ strictDirectKeys then addAdditionalPropertiesFalse v
  else if k ∈ strictArrayKeys then
    match v with
    | .arr xs => .arr (strictElems xs)
    | _ => v
  else if k ∈ strictObjKeys then
    match v with
    | .obj gs => .obj (strictInner gs)
    | _ => v
  else v

/-- The per-entry check performed by `strictAmendedOkFields`. -/
def strictAmendedEntryOk (k : String) (v : Json) : Bool :=
  if k ∈ strictDirectKeys then strictAmendedOk v
  else if k ∈ strictArrayKeys then
    match v with
    | .arr xs => strictAmendedOkElems xs
    | _ => true
  else if k ∈ strictObjKeys then
    match v with
    | .obj gs => strictAmendedOkInner gs
    | _ => true
  else true

/-! ### Support lemmas for the strict-mode adapter -/

theorem jget_jinsert_self (l : List (String × Json)) (k : String) (v : Json) :
    jget (jinsert l k v) k = some v := by
  induction l with
  | nil => simp [jinsert, jget]
  | cons p l ih =>
    obtain ⟨k', v'⟩ := p
    by_cases h : k' = k
    · simp [jinsert, h, jget]
    · simp [jinsert, h, jget, ih]

theorem jget_jinsert_ne (l : List (String × Json)) (k k' : String) (v : Json)
    (h : k' ≠ k) : jget (jinsert l k v) k' = jget l k' := by
  have hkk : ¬(k = k') := fun hh => h hh.symm
  induction l with
  | nil => simp [jinsert, jget, hkk]
  | cons p l ih =>
    obtain ⟨k0, v0⟩ := p
    by_cases h0 : k0 = k
    · subst h0
      simp [jinsert, jget, hkk]
    · simp only [jinsert, if_neg h0, jget]
      by_cases h1 : k0 = k'
      · simp [h1]
      · simp [h1, ih]

theorem jget_mapVals (f : String → Json → Json) (l : List (String × Json))
    (k : String) :
    jget (l.map fun p => (p.1, f p.1 p.2)) k = (jget l k).map (f k) := by
  induction l with
  | nil => simp [jget]
  | cons p l ih =>
    obtain ⟨k', v'⟩ := p
    by_cases h : k' = k
    · simp [jget, h]
    · simp [jget, h, ih]

theorem strictFields_cons (k : String) (v : Json) (fs : List (String × Json)) :
    strictFields ((k, v) :: fs) = (k, strictDispatch k v) :: strictFields fs := by
  cases v <;> simp only [strictFields, strictDispatch]

theorem strictInner_cons (k : String) (v : Json) (gs : List (String × Json)) :
    strictInner ((k, v) :: gs) =
      (k, addAdditionalPropertiesFalse v) :: strictInner gs := by
  simp only [strictInner]

theorem strictElems_cons (x : Json) (xs : List Json) :
    strictElems (x :: xs) = addAdditionalPropertiesFalse x :: strictElems xs := by
  simp only [strictElems]

theorem strictFields_eq (fs : List (String × Json)) :
    strictFields fs = fs.map fun p => (p.1, strictDispatch p.1 p.2) := by
  induction fs with
  | nil => simp only [strictFields, List.map_nil]
  | cons p fs ih =>
    obtain ⟨k, v⟩ := p
    rw [strictFields_cons, ih, List.map_cons]

theorem strictInner_eq (gs : List (String × Json)) :
    strictInner gs = gs.map fun p => (p.1, addAdditionalPropertiesFalse p.2) := by
  induction gs with
  | nil => simp only [strictInner, List.map_nil]
  | cons p gs ih =>
    obtain ⟨k, v⟩ := p
    rw [strictInner_cons, ih, List.map_cons]

theorem strictAmendedOk_obj (fs : List (String × Json)) :
    strictAmendedOk (.obj fs) =
      (strictAmendedKeysOk fs && strictAmendedOkFields fs) := by
  simp only [strictAmendedOk]

theorem strictAmendedOkFields_cons (k : String) (v : Json)
    (fs : List (String × Json)) :
    strictAmendedOkFields ((k, v) :: fs) =
      (strictAmendedEntryOk k v && strictAmendedOkFields fs) := by
  cases v <;> simp only [strictAmendedOkFields, strictAmendedEntryOk]

theorem strictAmendedOkElems_cons (x : Json) (xs : List Json) :
    strictAmendedOkElems (x :: xs) =
      (strictAmendedOk x && strictAmendedOkElems xs) := by
  simp only [strictAmendedOkElems]

theorem strictAmendedOkInner_cons (k : String) (v : Json)
    (gs : List (String × Json)) :
    strictAmendedOkInner ((k, v) :: gs) =
      (strictAmendedOk v && strictAmendedOkInner gs) := by
  simp only [strictAmendedOkInner]

theorem strictAmendedOkFields_eq (fs : List (String × Json)) :
    strictAmendedOkFields fs = fs.all fun p => strictAmendedEntryOk p.1 p.2 := by
  induction fs with
  | nil => simp only [strictAmendedOkFields, List.all_nil]
  | cons p fs ih =>
    obtain ⟨k, v⟩ := p
    rw [strictAmendedOkFields_cons, ih, List.all_cons]

theorem strictAmendedOkFields_jinsert (l : List (String × Json)) (k : String)
    (v : Json) (hl : strictAmendedOkFields l = true)
    (hv : strictAmendedEntryOk k v = true) :
    strictAmendedOkFields (jinsert l k v) = true := by
  rw [strictAmendedOkFields_eq] at hl ⊢
  induction l with
  | nil => simp [jinsert, hv]
  | cons p l ih =>
    obtain ⟨k0, v0⟩ := p
    simp only [List.all_cons, Bool.and_eq_true] at hl
    by_cases h : k0 = k
    · simp [jinsert, h, hv, hl.2]
    · simp only [jinsert, if_neg h, List.all_cons, Bool.and_eq_true]
      exact ⟨hl.1, ih hl.2⟩

theorem memJ_of_mem (x : Json) (l : List Json) (h : x ∈ l) : memJ x l = true := by
  induction l with
  | nil => cases h
  | cons y l ih =>
    by_cases hxy : x = y
    · simp [memJ, hxy]
    · simp only [memJ, if_neg hxy]
      cases h with
      | head => exact absurd rfl hxy
      | tail _ h => exact ih h

theorem sameElems_self (l : List Json) : sameElems l l = true := by
  simp only [sameElems, Bool.and_eq_true, List.all_eq_true]
  exact ⟨fun x hx => memJ_of_mem x l hx, fun x hx => memJ_of_mem x l hx⟩

theorem strictDispatch_properties (v : Json) :
    strictDispatch "properties" v =
      (match v with
       | .obj gs => .obj (strictInner gs)
       | _ => v) := by
  have h1 : ("properties" ∈ strictDirectKeys) = False := by
    simp [strictDirectKeys]
  have h2 : ("properties" ∈ strictArrayKeys) = False := by
    simp [strictArrayKeys]
  have h3 : ("properties" ∈ strictObjKeys) = True := by
    simp [strictObjKeys]
  simp only [strictDispatch, h1, h2, h3, if_false, if_true]

theorem strictAmendedEntryOk_required (v : Json) :
    strictAmendedEntryOk "required" v = true := by
  cases v <;>
    simp [strictAmendedEntryOk, strictDirectKeys, strictArrayKeys, strictObjKeys]

theorem strictLocal_keysOk (fs : List (String × Json)) :
    strictAmendedKeysOk (strictLocal fs (strictFields fs)) = true := by
  have hprops : jget (strictFields fs) "properties" =
      (jget fs "properties").map (strictDispatch "properties") := by
    rw [strictFields_eq, jget_mapVals]
  unfold strictLocal
  by_cases hcond : (isObjectTypeNode fs || jhas fs "properties") = true
  · rw [if_pos hcond]
    cases hp : jget fs "properties" with
    | none =>
      simp only [strictLocalAux]
      unfold strictAmendedKeysOk
      rw [jget_jinsert_ne _ _ _ _ (by decide), hprops, hp]
      simp
    | some v =>
      cases v with
      | obj props =>
        simp only [strictLocalAux]
        by_cases he : props.isEmpty = true
        · rw [if_pos he]
          have hnil : props = [] := by simpa using he
          subst hnil
          unfold strictAmendedKeysOk
          have hP : jget (jinsert (strictFields fs) "additionalProperties"
              (Json.bool false)) "properties" = some (Json.obj []) := by
            rw [jget_jinsert_ne _ _ _ _ (by decide), hprops, hp]
            simp [strictDispatch_properties, strictInner]
          have hAP : jget (jinsert (strictFields fs) "additionalProperties"
              (Json.bool false)) "additionalProperties" =
              some (Json.bool false) := jget_jinsert_self _ _ _
          simp [hP, hAP]
        · rw [if_neg he]
          unfold strictAmendedKeysOk
          have hP : jget (jinsert (jinsert (strictFields fs)
              "additionalProperties" (Json.bool false)) "required"
              (Json.arr (props.map fun p => Json.str p.1)))
              "properties" = some (Json.obj (strictInner props)) := by
            rw [jget_jinsert_ne _ _ _ _ (by decide),
              jget_jinsert_ne _ _ _ _ (by decide), hprops, hp]
            simp [strictDispatch_properties]
          have hAP : jget (jinsert (jinsert (strictFields fs)
              "additionalProperties" (Json.bool false)) "required"
              (Json.arr (props.map fun p => Json.str p.1)))
              "additionalProperties" = some (Json.bool false) := by
            rw [jget_jinsert_ne _ _ _ _ (by decide), jget_jinsert_self]
          have hreq : jget (jinsert (jinsert (strictFields fs)
              "additionalProperties" (Json.bool false)) "required"
              (Json.arr (props.map fun p => Json.str p.1)))
              "required" = some (Json.arr (props.map fun p => Json.str p.1)) :=
            jget_jinsert_self _ _ _
          have hkeys : (strictInner props).map (fun p => Json.str p.1) =
              props.map (fun p => Json.str p.1) := by
            rw [strictInner_eq, List.map_map]
            rfl
          simp [hP, hAP, hreq, hkeys, sameElems_self]
      | null =>
        simp only [strictLocalAux]
        unfold strictAmendedKeysOk
        have hP : jget (jinsert (strictFields fs) "additionalProperties"
            (Json.bool false)) "properties" = some Json.null := by
          rw [jget_jinsert_ne _ _ _ _ (by decide), hprops, hp]
          simp [strictDispatch_properties]
        simp [hP]
      | bool b =>
        simp only [strictLocalAux]
        unfold strictAmendedKeysOk
        have hP : jget (jinsert (strictFields fs) "additionalProperties"
            (Json.bool false)) "properties" = some (Json.bool b) := by
          rw [jget_jinsert_ne _ _ _ _ (by decide), hprops, hp]
          simp [strictDispatch_properties]
        simp [hP]
      | num n =>
        simp only [strictLocalAux]
        unfold strictAmendedKeysOk
        have hP : jget (jinsert (strictFields fs) "additionalProperties"
            (Json.bool false)) "properties" = some (Json.num n) := by
          rw [jget_jinsert_ne _ _ _ _ (by decide), hprops, hp]
          simp [strictDispatch_properties]
        simp [hP]
      | str s =>
        simp only [strictLocalAux]
        unfold strictAmendedKeysOk
        have hP : jget (jinsert (strictFields fs) "additionalProperties"
            (Json.bool false)) "properties" = some (Json.str s) := by
          rw [jget_jinsert_ne _ _ _ _ (by decide), hprops, hp]
          simp [strictDispatch_properties]
        simp [hP]
      | arr xs =>
        simp only [strictLocalAux]
        unfold strictAmendedKeysOk
        have hP : jget (jinsert (strictFields fs) "additionalProperties"
            (Json.bool false)) "properties" = some (Json.arr xs) := by
          rw [jget_jinsert_ne _ _ _ _ (by decide), hprops, hp]
          simp [strictDispatch_properties]
        simp [hP]
  · rw [if_neg hcond]
    have hnone : jget fs "properties" = none := by
      simp only [Bool.or_eq_true, not_or] at hcond
      have h2 := hcond.2
      unfold jhas at h2
      cases h : jget fs "properties" with
      | none => rfl
      | some v => rw [h] at h2; simp at h2
    unfold strictAmendedKeysOk
    rw [hprops, hnone]
    simp

theorem strictLocal_fieldsOk (fs l : List (String × Json))
    (hl : strictAmendedOkFields l = true) :
    strictAmendedOkFields (strictLocal fs l) = true := by
  unfold strictLocal
  by_cases hcond : (isObjectTypeNode fs || jhas fs "properties") = true
  · rw [if_pos hcond]
    have h1 : strictAmendedOkFields
        (jinsert l "additionalProperties" (.bool false)) = true :=
      strictAmendedOkFields_jinsert _ _ _ hl (by decide)
    cases hp : jget fs "properties" with
    | none => simpa only [strictLocalAux] using h1
    | some v =>
      cases v with
      | obj props =>
        simp only [strictLocalAux]
        by_cases he : props.isEmpty = true
        · rw [if_pos he]; exact h1
        · rw [if_neg he]
          refine strictAmendedOkFields_jinsert _ _ _ h1 ?_
          exact strictAmendedEntryOk_required _
      | null => simpa only [strictLocalAux] using h1
      | bool b => simpa only [strictLocalAux] using h1
      | num n => simpa only [strictLocalAux] using h1
      | str s => simpa only [strictLocalAux] using h1
      | arr xs => simpa only [strictLocalAux] using h1
  · rw [if_neg hcond]; exact hl

mutual

theorem strictAmended_all :
    ∀ j, strictAmendedOk (addAdditionalPropertiesFalse j) = true
  | .null => by simp [addAdditionalPropertiesFalse, strictAmendedOk]
  | .bool _ => by simp [addAdditionalPropertiesFalse, strictAmendedOk]
  | .num _ => by simp [addAdditionalPropertiesFalse, strictAmendedOk]
  | .str _ => by simp [addAdditionalPropertiesFalse, strictAmendedOk]
  | .arr _ => by simp [addAdditionalPropertiesFalse, strictAmendedOk]
  | .obj fs => by
    have hf := strictAmended_fields fs
    simp only [addAdditionalPropertiesFalse, strictAmendedOk_obj,
      Bool.and_eq_true]
    exact ⟨strictLocal_keysOk fs, strictLocal_fieldsOk fs _ hf⟩

theorem strictAmended_fields :
    ∀ fs, strictAmendedOkFields (strictFields fs) = true
  | [] => by simp [strictFields, strictAmendedOkFields]
  | (k, v) :: fs => by
    have hrest := strictAmended_fields fs
    rw [strictFields_cons, strictAmendedOkFields_cons, hrest, Bool.and_true]
    unfold strictAmendedEntryOk strictDispatch
    by_cases h1 : k ∈ strictDirectKeys
    · rw [if_pos h1, if_pos h1]
      exact strictAmended_all v
    · rw [if_neg h1, if_neg h1]
      by_cases h2 : k ∈ strictArrayKeys
      · rw [if_pos h2, if_pos h2]
        cases v with
        | arr xs => exact strictAmended_elems xs
        | null => rfl
        | bool b => rfl
        | num n => rfl
        | str s => rfl
        | obj gs => rfl
      · rw [if_neg h2, if_neg h2]
        by_cases h3 : k ∈ strictObjKeys
        · rw [if_pos h3, if_pos h3]
          cases v with
          | obj gs => exact strictAmended_inner gs
          | null => rfl
          | bool b => rfl
          | num n => rfl
          | str s => rfl
          | arr xs => rfl
        · rw [if_neg h3]

theorem strictAmended_elems :
    ∀ xs, strictAmendedOkElems (strictElems xs) = true
  | [] => by simp [strictElems, strictAmendedOkElems]
  | x :: xs => by
    rw [strictElems_cons, strictAmendedOkElems_cons, strictAmended_all x,
      strictAmended_elems xs]
    rfl

theorem strictAmended_inner :
    ∀ gs, strictAmendedOkInner (strictInner gs) = true
  | [] => by simp [strictInner, strictAmendedOkInner]
  | (k, v) :: gs => by
    rw [strictInner_cons, strictAmendedOkInner_cons, strictAmended_all v,
      strictAmended_inner gs]
    rfl

end



/-! ### Support lemmas for the response reshaper and retry coordinator -/

theorem filter_ne_tag (tag : String) (v : Json) (rest : List (String × Json))
    (hkeys : ∀ p ∈ rest, p.1 ≠ tag) :
    List.filter (fun p => decide (p.1 ≠ tag)) ((tag, v) :: rest) = rest := by
  have h1 : List.filter (fun p => decide (p.1 ≠ tag)) rest = rest := by
    rw [List.filter_eq_self]
    intro a ha
    simp [hkeys a ha]
  simp only [List.filter_cons, ne_eq, decide_not]
  simp only [ne_eq, decide_not] at h1
  simp [h1]

theorem filter_eq_tag (tag : String) (v : Json) (rest : List (String × Json))
    (hkeys : ∀ p ∈ rest, p.1 ≠ tag) :
    List.filter (fun p => decide (p.1 = tag)) ((tag, v) :: rest) = [(tag, v)] := by
  have h1 : List.filter (fun p => decide (p.1 = tag)) rest = [] := by
    rw [List.filter_eq_nil_iff]
    intro a ha
    simp [hkeys a ha]
  simp [List.filter_cons, h1]

theorem tita_matched (info : AdjacentlyTaggedEnumInfo) (v : String)
    (rest : List (String × Json))
    (hv : v ∈ info.tag_values)
    (hkeys : ∀ p ∈ rest, p.1 ≠ info.tag_key)
    (hne : rest ≠ [])
    (hck : info.content_key ≠ info.tag_key) :
    transform_internally_to_adjacently_tagged info
      (.obj ((info.tag_key, .str v) :: rest)) =
      .obj [(info.tag_key, .str v), (info.content_key, .obj rest)] := by
  have hjget : jget ((info.tag_key, Json.str v) :: rest) info.tag_key =
      some (Json.str v) := by simp [jget]
  have h1 := filter_ne_tag info.tag_key (Json.str v) rest hkeys
  have h2 := filter_eq_tag info.tag_key (Json.str v) rest hkeys
  have hie : rest.isEmpty = false := by
    cases rest with
    | nil => exact absurd rfl hne
    | cons a l => rfl
  unfold transform_internally_to_adjacently_tagged
  rw [hjget]
  simp only [hv, if_true, h1, h2, hie, Bool.false_eq_true, if_false]
  simp [jinsert, Ne.symm hck]

theorem tita_unit (info : AdjacentlyTaggedEnumInfo) (v : String)
    (hv : v ∈ info.tag_values) :
    transform_internally_to_adjacently_tagged info
      (.obj [(info.tag_key, .str v)]) = .obj [(info.tag_key, .str v)] := by
  have hjget : jget [(info.tag_key, Json.str v)] info.tag_key =
      some (Json.str v) := by simp [jget]
  unfold transform_internally_to_adjacently_tagged
  rw [hjget]
  simp [hv]

theorem titaFields_cons (info : AdjacentlyTaggedEnumInfo) (k : String)
    (v : Json) (fs : List (String × Json)) :
    titaFields info ((k, v) :: fs) =
      (k, transform_internally_to_adjacently_tagged info v) ::
        titaFields info fs := by
  simp only [titaFields]

theorem titaElems_cons (info : AdjacentlyTaggedEnumInfo) (x : Json)
    (xs : List Json) :
    titaElems info (x :: xs) =
      transform_internally_to_adjacently_tagged info x :: titaElems info xs := by
  simp only [titaElems]

theorem titaFields_eq (info : AdjacentlyTaggedEnumInfo) :
    ∀ fs, titaFields info fs =
      fs.map fun p => (p.1, transform_internally_to_adjacently_tagged info p.2)
  | [] => by simp [titaFields]
  | (k, v) :: fs => by
    rw [titaFields_cons, titaFields_eq info fs, List.map_cons]

theorem titaElems_eq (info : AdjacentlyTaggedEnumInfo) :
    ∀ xs, titaElems info xs =
      xs.map (transform_internally_to_adjacently_tagged info)
  | [] => by simp [titaElems]
  | x :: xs => by
    rw [titaElems_cons, titaElems_eq info xs, List.map_cons]

theorem tita_arr (info : AdjacentlyTaggedEnumInfo) (xs : List Json) :
    transform_internally_to_adjacently_tagged info (.arr xs) =
      .arr (xs.map (transform_internally_to_adjacently_tagged info)) := by
  rw [← titaElems_eq]
  simp only [transform_internally_to_adjacently_tagged]

theorem tita_nonmatch (info : AdjacentlyTaggedEnumInfo)
    (fs : List (String × Json))
    (h : ∀ s, jget fs info.tag_key = some (.str s) → s ∉ info.tag_values) :
    transform_internally_to_adjacently_tagged info (.obj fs) =
      .obj (fs.map fun p =>
        (p.1, transform_internally_to_adjacently_tagged info p.2)) := by
  rw [← titaFields_eq]
  unfold transform_internally_to_adjacently_tagged
  cases hj : jget fs info.tag_key with
  | none => rfl
  | some v =>
    cases v with
    | str s =>
      have hs := h s hj
      simp [hs]
    | null => rfl
    | bool b => rfl
    | num n => rfl
    | arr ys => rfl
    | obj gs => rfl

theorem retryLoop_ok {T : Type} (gen : Nat → List ChatMessage → AttemptOutcome T)
    (attempt r ms s c : _) (t : T) (hg : gen attempt ms = .ok t) :
    retryLoop gen attempt (r + 1) ms s c = ⟨.ok t, ms, s, c + 1⟩ := by
  simp only [retryLoop, hg]

theorem retryLoop_validation_step {T : Type}
    (gen : Nat → List ChatMessage → AttemptOutcome T) (attempt r ms s c : _)
    (m : String) (ctx : ValidationFailureContext)
    (hg : gen attempt ms = .err (.validationError m) (some ctx)) :
    retryLoop gen attempt (r + 2) ms s c =
      retryLoop gen (attempt + 1) (r + 1)
        (ms ++ [ChatMessage.assistant ctx.raw_response,
          ChatMessage.user (error_feedback ctx.error_message)])
        (s + 1) (c + 1) := by
  show retryLoop gen attempt ((r + 1) + 1) ms s c = _
  simp only [retryLoop, hg]
  simp

theorem retryLoop_validation_noctx_step {T : Type}
    (gen : Nat → List ChatMessage → AttemptOutcome T) (attempt r ms s c : _)
    (m : String) (hg : gen attempt ms = .err (.validationError m) none) :
    retryLoop gen attempt (r + 2) ms s c =
      retryLoop gen (attempt + 1) (r + 1) ms (s + 1) (c + 1) := by
  show retryLoop gen attempt ((r + 1) + 1) ms s c = _
  simp only [retryLoop, hg]
  simp

theorem retryLoop_retryable_step {T : Type}
    (gen : Nat → List ChatMessage → AttemptOutcome T) (attempt r ms s c : _)
    (d : Option Nat) (ctx : Option ValidationFailureContext)
    (hg : gen attempt ms = .err (.otherError true d) ctx) :
    retryLoop gen attempt (r + 2) ms s c =
      retryLoop gen (attempt + 1) (r + 1) ms (s + 1) (c + 1) := by
  show retryLoop gen attempt ((r + 1) + 1) ms s c = _
  simp only [retryLoop, hg]
  simp

theorem retryLoop_validation_last {T : Type}
    (gen : Nat → List ChatMessage → AttemptOutcome T) (attempt ms s c : _)
    (m : String) (ctx : Option ValidationFailureContext)
    (hg : gen attempt ms = .err (.validationError m) ctx) :
    retryLoop gen attempt 1 ms s c =
      ⟨.error (.validationError m), ms, s, c + 1⟩ := by
  show retryLoop gen attempt (0 + 1) ms s c = _
  simp only [retryLoop, hg]
  simp

theorem retryLoop_other_last {T : Type}
    (gen : Nat → List ChatMessage → AttemptOutcome T) (attempt ms s c : _)
    (rb : Bool) (d : Option Nat) (ctx : Option ValidationFailureContext)
    (hg : gen attempt ms = .err (.otherError rb d) ctx) :
    retryLoop gen attempt 1 ms s c =
      ⟨.error (.otherError rb d), ms, s, c + 1⟩ := by
  show retryLoop gen attempt (0 + 1) ms s c = _
  simp only [retryLoop, hg]
  simp

theorem alternating_append_pair :
    ∀ (ms : List ChatMessage) (a b : String),
      alternatingRoles ms = true → endsWithUser ms = true →
      alternatingRoles (ms ++ [ChatMessage.assistant a, ChatMessage.user b]) = true ∧
      endsWithUser (ms ++ [ChatMessage.assistant a, ChatMessage.user b]) = true
  | [], a, b, h1, h2 => by simp [endsWithUser] at h2
  | [m], a, b, h1, h2 => by
    simp only [endsWithUser, decide_eq_true_eq] at h2
    refine ⟨?_, ?_⟩
    · simp [alternatingRoles, ChatMessage.assistant, ChatMessage.user, h2]
    · simp [endsWithUser, ChatMessage.user]
  | m1 :: m2 :: rest, a, b, h1, h2 => by
    simp only [alternatingRoles, Bool.and_eq_true, decide_eq_true_eq] at h1
    have h2' : endsWithUser (m2 :: rest) = true := h2
    have ih := alternating_append_pair (m2 :: rest) a b h1.2 h2'
    refine ⟨?_, ?_⟩
    · show (decide (m1.role ≠ m2.role) &&
        alternatingRoles ((m2 :: rest) ++ [ChatMessage.assistant a, ChatMessage.user b])) = true
      rw [Bool.and_eq_true]
      exact ⟨by simp [h1.1], ih.1⟩
    · show endsWithUser ((m2 :: rest) ++ [ChatMessage.assistant a, ChatMessage.user b]) = true
      exact ih.2

theorem retryLoop_alternating {T : Type}
    (gen : Nat → List ChatMessage → AttemptOutcome T) :
    ∀ (rem attempt : Nat) (ms : List ChatMessage) (s c : Nat),
      alternatingRoles ms = true → endsWithUser ms = true →
      alternatingRoles (retryLoop gen attempt rem ms s c).messages = true
  | 0, attempt, ms, s, c, h1, _ => by simp [retryLoop]; exact h1
  | rem + 1, attempt, ms, s, c, h1, h2 => by
    cases hg : gen attempt ms with
    | ok t => rw [retryLoop_ok gen attempt rem ms s c t hg]; exact h1
    | err e ctx =>
      cases e with
      | validationError m =>
        cases rem with
        | zero =>
          rw [retryLoop_validation_last gen attempt ms s c m ctx hg]
          exact h1
        | succ r =>
          cases ctx with
          | some ctx =>
            rw [retryLoop_validation_step gen attempt r ms s c m ctx hg]
            have hp := alternating_append_pair ms ctx.raw_response
              (error_feedback ctx.error_message) h1 h2
            exact retryLoop_alternating gen (r + 1) (attempt + 1) _ (s + 1)
              (c + 1) hp.1 hp.2
          | none =>
            rw [retryLoop_validation_noctx_step gen attempt r ms s c m hg]
            exact retryLoop_alternating gen (r + 1) (attempt + 1) ms (s + 1)
              (c + 1) h1 h2
      | otherError rb d =>
        cases rem with
        | zero =>
          rw [retryLoop_other_last gen attempt ms s c rb d ctx hg]
          exact h1
        | succ r =>
          cases rb with
          | true =>
            rw [retryLoop_retryable_step gen attempt r ms s c d ctx hg]
            exact retryLoop_alternating gen (r + 1) (attempt + 1) ms (s + 1)
              (c + 1) h1 h2
          | false =>
            have : retryLoop gen attempt (r + 1 + 1) ms s c =
                ⟨.error (.otherError false d), ms, s, c + 1⟩ := by
              simp only [retryLoop, hg]
              simp
            rw [this]
            exact h1


/-! ### Claims C1 and C4: constrained-JSON downgrade and response reshaper -/

/-- C1 (amended).  For an `Adjacent`-tagged enum whose non-unit variants
all have named fields — here the `TaskResult` enum of the repository's
integration tests — the constrained-JSON adaptation and the response
reshaper do round-trip: (1) the Gemini `oneOf` downgrade rewrites each
named-field variant to internal tagging and leaves the unit variant
alone, (2) the extracted reversal descriptor records the tag key, the
content key and the named variants' tag values, (3) every internal-form
instance (tag field followed by payload fields that avoid the tag key)
reshapes to exactly the tag field plus the payload nested under the
content field, with the payload kept verbatim, (4) a tag-only instance
stays tag-only (no content field), and (5) the unit variant's instance —
whose tag value is deliberately absent from the descriptor — passes
through the reshaper unchanged. -/
theorem adjacent_roundtrip_named_unit_variants :
    geminiOneOfDowngrade taskResultVariants =
      [Json.obj [("type", .str "object"),
         ("properties", .obj
           [("status", .obj [("type", .str "string"),
              ("enum", .arr [.str "Success"])]),
            ("output", .obj [("type", .str "string"),
              ("description", .str "Field output")]),
            ("tokens_used", .obj [("type", .str "integer"),
              ("description", .str "Field tokens_used")])]),
         ("required", .arr [.str "status", .str "output", .str "tokens_used"]),
         ("description",
          .str "Task completed successfully (flattened for Gemini compatibility)"),
         ("additionalProperties", .bool false)],
       Json.obj [("type", .str "object"),
         ("properties", .obj
           [("status", .obj [("type", .str "string"),
              ("enum", .arr [.str "Failure"])]),
            ("error_code", .obj [("type", .str "integer"),
              ("description", .str "Field error_code")]),
            ("reason", .obj [("type", .str "string"),
              ("description", .str "Field reason")])]),
         ("required", .arr [.str "status", .str "error_code", .str "reason"]),
         ("description",
          .str "Task failed with an error message (flattened for Gemini compatibility)"),
         ("additionalProperties", .bool false)],
       taskPendingVariant] ∧
    extract_adjacently_tagged_info taskResultSchema = some taskResultInfo ∧
    (∀ (info : AdjacentlyTaggedEnumInfo) (v : String)
        (rest : List (String × Json)),
      v ∈ info.tag_values → (∀ p ∈ rest, p.1 ≠ info.tag_key) → rest ≠ [] →
      info.content_key ≠ info.tag_key →
      transform_internally_to_adjacently_tagged info
          (.obj ((info.tag_key, .str v) :: rest)) =
        .obj [(info.tag_key, .str v), (info.content_key, .obj rest)]) ∧
    (∀ (info : AdjacentlyTaggedEnumInfo) (v : String), v ∈ info.tag_values →
      transform_internally_to_adjacently_tagged info
          (.obj [(info.tag_key, .str v)]) = .obj [(info.tag_key, .str v)]) ∧
    transform_internally_to_adjacently_tagged taskResultInfo
        (.obj [("status", .str "Pending")]) =
      .obj [("status", .str "Pending")] := by
  refine ⟨by decide, by decide, ?_, ?_, by decide⟩
  · intro info v rest hv hkeys hne hck
    exact tita_matched info v rest hv hkeys hne hck
  · intro info v hv
    exact tita_unit info v hv

/-- Witness for C1: the amended round trip evaluated on the `Success`
variant of `TaskResult` with a concrete payload. -/
theorem adjacent_roundtrip_named_unit_variants_witness :
    transform_internally_to_adjacently_tagged taskResultInfo
        (.obj [("status", .str "Success"), ("output", .str "Calculated"),
          ("tokens_used", .num 100)]) =
      .obj [("status", .str "Success"),
        ("data", .obj [("output", .str "Calculated"),
          ("tokens_used", .num 100)])] :=
  adjacent_roundtrip_named_unit_variants.2.2.1 taskResultInfo "Success"
    [("output", .str "Calculated"), ("tokens_used", .num 100)]
    (by decide) (by intro p hp; fin_cases hp <;> decide) (by decide) (by decide)

/-- C1 is false as stated: in an `Adjacent`-tagged enum covering all four
variant kinds (unit `Pending`, single unnamed field `Note(String)`,
multiple unnamed fields `Pair(i32, String)`, named `Named{a}`), the tuple
variants' content schemas are not objects with properties, so the Gemini
`oneOf` downgrade does not fire (the wire schema stays Adjacent-shaped,
i.e. a compliant response for it is the Adjacent instance itself), while
the reversal descriptor is still extracted with only the named variant's
tag value; the reshaper applied to the well-formed Adjacent instance of
the named variant then double-wraps its payload instead of returning the
original structure. -/
theorem adjacent_roundtrip_claim_counterexample :
    extract_adjacently_tagged_info mixedSchema =
      some ⟨"status", "data", ["Named"]⟩ ∧
    geminiOneOfDowngrade mixedVariants = mixedVariants ∧
    transform_internally_to_adjacently_tagged ⟨"status", "data", ["Named"]⟩
        (.obj [("status", .str "Named"), ("data", .obj [("a", .num 1)])]) =
      .obj [("status", .str "Named"),
        ("data", .obj [("data", .obj [("a", .num 1)])])] ∧
    Json.obj [("status", .str "Named"),
        ("data", .obj [("data", .obj [("a", .num 1)])])] ≠
      .obj [("status", .str "Named"), ("data", .obj [("a", .num 1)])] := by
  refine ⟨by decide, by decide, by decide, by decide⟩

/-- C4 (amended).  The response reshaper recurses into nested objects and
arrays only from objects that did not match the tag pattern: (1) an
object whose tag-key value is missing, non-string, or not one of the
descriptor's tag values keeps its own shape and has each of its values
reshaped recursively, (2) an array has each element reshaped
recursively, and (3) a matched object is rewritten in place — the tag is
kept and the remaining fields are nested verbatim under the content key —
without recursing into the moved payload, so a tagged instance nested
inside a matched instance's payload is not converted. -/
theorem reshaper_recursion_amended :
    (∀ (info : AdjacentlyTaggedEnumInfo) (fs : List (String × Json)),
      (∀ s, jget fs info.tag_key = some (.str s) → s ∉ info.tag_values) →
      transform_internally_to_adjacently_tagged info (.obj fs) =
        .obj (fs.map fun p =>
          (p.1, transform_internally_to_adjacently_tagged info p.2))) ∧
    (∀ (info : AdjacentlyTaggedEnumInfo) (xs : List Json),
      transform_internally_to_adjacently_tagged info (.arr xs) =
        .arr (xs.map (transform_internally_to_adjacently_tagged info))) ∧
    (∀ (info : AdjacentlyTaggedEnumInfo) (v : String)
        (rest : List (String × Json)),
      v ∈ info.tag_values → (∀ p ∈ rest, p.1 ≠ info.tag_key) → rest ≠ [] →
      info.content_key ≠ info.tag_key →
      transform_internally_to_adjacently_tagged info
          (.obj ((info.tag_key, .str v) :: rest)) =
        .obj [(info.tag_key, .str v), (info.content_key, .obj rest)]) := by
  refine ⟨?_, ?_, ?_⟩
  · intro info fs h
    exact tita_nonmatch info fs h
  · intro info xs
    exact tita_arr info xs
  · intro info v rest hv hkeys hne hck
    exact tita_matched info v rest hv hkeys hne hck

/-- Witness for C4: the amended recursion behaviour evaluated on a
non-matching object (wrong tag value) containing a matching instance,
whose child is converted while the outer object keeps its shape. -/
theorem reshaper_recursion_amended_witness :
    transform_internally_to_adjacently_tagged ⟨"tag", "content", ["A", "B"]⟩
        (.obj [("tag", .str "C"),
          ("inner", .obj [("tag", .str "A"), ("y", .num 2)])]) =
      .obj [("tag", .str "C"),
        ("inner",
         transform_internally_to_adjacently_tagged
           ⟨"tag", "content", ["A", "B"]⟩
           (.obj [("tag", .str "A"), ("y", .num 2)]))] := by
  have h := reshaper_recursion_amended.1 ⟨"tag", "content", ["A", "B"]⟩
    [("tag", .str "C"), ("inner", .obj [("tag", .str "A"), ("y", .num 2)])]
    (by intro s hs; simp [jget] at hs; subst hs; decide)
  exact h

/-- C4 is false as stated: the reshaper does not recurse into the payload
of a matched object, so a tagged instance nested inside another matched
instance's field is left in internal form; the claim's expected output
(inner instance also converted) differs from the computed one. -/
theorem reshaper_recursion_claim_counterexample :
    transform_internally_to_adjacently_tagged ⟨"tag", "content", ["A", "B"]⟩
        (.obj [("tag", .str "A"),
          ("child", .obj [("tag", .str "B"), ("x", .num 1)])]) =
      .obj [("tag", .str "A"),
        ("content", .obj
          [("child", .obj [("tag", .str "B"), ("x", .num 1)])])] ∧
    Json.obj [("tag", .str "A"),
        ("content", .obj
          [("child", .obj [("tag", .str "B"), ("x", .num 1)])])] ≠
      .obj [("tag", .str "A"),
        ("content", .obj
          [("child", .obj [("tag", .str "B"),
            ("content", .obj [("x", .num 1)])])])] := by
  refine ⟨by decide, by decide⟩

/-! ### Claim C2: strict-mode adapter closure -/

/-- C2 (amended).  `prepare_strict_schema` returns a schema in which
every reachable node that has a non-empty `properties` map ends with
`additionalProperties == false` and a `required` array containing exactly
that node's property keys — and every node with a (possibly empty)
`properties` map ends with `additionalProperties == false` — where
reachability recurses into `properties`, `items`, `additionalItems`,
`allOf`/`anyOf`/`oneOf` members, `$defs`/`definitions` entries, `not`,
`if`/`then`/`else`, `patternProperties`, `contains` and `propertyNames`
(but not into `prefixItems` elements, which the adapter never visits);
a node with an empty `properties` map keeps whatever `required` array
it had. -/
theorem strict_adapter_amended_closure (s : Json) :
    strictAmendedOk (prepare_strict_schema s) = true :=
  strictAmended_all s

/-- C2 is false as stated on two counts: the adapter never recurses into
`prefixItems` elements, so an object node with a properties map nested
there is left without `additionalProperties: false`; and a node whose
`properties` map is empty keeps a stale pre-existing `required` array
instead of one containing exactly its (zero) property keys. -/
theorem strict_adapter_claim_counterexample :
    strictClaimOk (prepare_strict_schema (Json.obj [("prefixItems",
      .arr [.obj [("properties", .obj [("a", .obj [])])]])])) = false ∧
    (prepare_strict_schema (Json.obj [("properties", .obj []),
      ("required", .arr [.str "x"])])).get "required" =
        some (.arr [.str "x"]) ∧
    strictClaimOk (prepare_strict_schema (Json.obj [("properties", .obj []),
      ("required", .arr [.str "x"])])) = false := by
  refine ⟨by decide, by decide, by decide⟩

/-! ### Claims C5 and C9: retry coordinator -/

/-- When every attempt fails with a context-carrying validation error,
the loop ends in failure and the history grows by exactly two messages
per non-final attempt. -/
theorem retryLoop_all_validation {T : Type}
    (gen : Nat → List ChatMessage → AttemptOutcome T)
    (h : ∀ i ms, ∃ m c, gen i ms = .err (.validationError m) (some c)) :
    ∀ (rem attempt : Nat) (ms : List ChatMessage) (s c : Nat), 1 ≤ rem →
      (∃ e, (retryLoop gen attempt rem ms s c).result = .error e) ∧
      (retryLoop gen attempt rem ms s c).messages.length =
        ms.length + 2 * (rem - 1)
  | 0, _, _, _, _, hrem => absurd hrem (by omega)
  | 1, attempt, ms, s, c, _ => by
    obtain ⟨m, ctx, hg⟩ := h attempt ms
    rw [retryLoop_validation_last gen attempt ms s c m (some ctx) hg]
    exact ⟨⟨.validationError m, rfl⟩, by simp⟩
  | rem + 2, attempt, ms, s, c, _ => by
    obtain ⟨m, ctx, hg⟩ := h attempt ms
    rw [retryLoop_validation_step gen attempt rem ms s c m ctx hg]
    have ih := retryLoop_all_validation gen h (rem + 1) (attempt + 1)
      (ms ++ [ChatMessage.assistant ctx.raw_response,
        ChatMessage.user (error_feedback ctx.error_message)])
      (s + 1) (c + 1) (by omega)
    refine ⟨ih.1, ?_⟩
    rw [ih.2]
    simp [List.length_append]
    omega

/-- C5.  With `max_retries = 2`, three consecutive validation failures
(each carrying raw-response context) end in failure with a conversation
history of length 5 — the initial user message plus an assistant/user
pair appended by each of the two retries; with `max_retries` unset
(`none`) or `0`, exactly one backend call is made on the single user
message, no sleep occurs, the history does not grow, and the underlying
error is returned verbatim. -/
theorem retry_history_growth_and_single_attempt :
    (∀ (T : Type) (gen : Nat → List ChatMessage → AttemptOutcome T)
        (prompt : String),
      (∀ i ms, isValidationFailureWithCtx (gen i ms) = true) →
      (∃ e, (generate_with_retry_with_history gen prompt (some 2)).result =
        .error e) ∧
      (generate_with_retry_with_history gen prompt (some 2)).messages.length
        = 5) ∧
    (∀ (T : Type) (gen : Nat → List ChatMessage → AttemptOutcome T)
        (prompt : String) (e : RStructorError)
        (ctx : Option ValidationFailureContext),
      gen 0 [ChatMessage.user prompt] = .err e ctx →
      generate_with_retry_with_history gen prompt none =
        ⟨.error e, [ChatMessage.user prompt], 0, 1⟩ ∧
      generate_with_retry_with_history gen prompt (some 0) =
        ⟨.error e, [ChatMessage.user prompt], 0, 1⟩) := by
  constructor
  · intro T gen prompt h
    have hshape : ∀ i ms, ∃ m c, gen i ms =
        .err (.validationError m) (some c) := by
      intro i ms
      have hb := h i ms
      cases hg : gen i ms with
      | ok t => rw [hg] at hb; simp [isValidationFailureWithCtx] at hb
      | err e ctx =>
        cases e with
        | validationError m =>
          cases ctx with
          | some ctx => exact ⟨m, ctx, rfl⟩
          | none => rw [hg] at hb; simp [isValidationFailureWithCtx] at hb
        | otherError rb d =>
          rw [hg] at hb; simp [isValidationFailureWithCtx] at hb
    have hrun : generate_with_retry_with_history gen prompt (some 2) =
        retryLoop gen 0 3 [ChatMessage.user prompt] 0 0 := by
      simp [generate_with_retry_with_history]
    rw [hrun]
    have := retryLoop_all_validation gen hshape 3 0
      [ChatMessage.user prompt] 0 0 (by omega)
    exact ⟨this.1, by rw [this.2]; rfl⟩
  · intro T gen prompt e ctx hg
    constructor
    · simp [generate_with_retry_with_history, hg]
    · simp [generate_with_retry_with_history, hg]

/-- Witness for C5: a backend that always fails validation with context,
run with `max_retries = 2` (five messages, failure) and with
`max_retries = none` (error surfaced verbatim, single user message, no
sleep, one call). -/
theorem retry_history_growth_and_single_attempt_witness :
    ((generate_with_retry_with_history
        (fun _ _ => AttemptOutcome.err (T := Unit) (.validationError "bad")
          (some ⟨"bad", "raw"⟩))
        "prompt" (some 2)).messages.length = 5) ∧
    generate_with_retry_with_history
        (fun _ _ => AttemptOutcome.err (T := Unit)
          (.otherError true (some 1)) none)
        "prompt" none =
      ⟨.error (.otherError true (some 1)), [ChatMessage.user "prompt"],
        0, 1⟩ := by
  constructor
  · exact (retry_history_growth_and_single_attempt.1 Unit
      (fun _ _ => AttemptOutcome.err (.validationError "bad")
        (some ⟨"bad", "raw"⟩))
      "prompt" (fun _ _ => rfl)).2
  · exact (retry_history_growth_and_single_attempt.2 Unit
      (fun _ _ => AttemptOutcome.err (.otherError true (some 1)) none)
      "prompt" (.otherError true (some 1)) none rfl).1

/-- C9.  Throughout every retry sequence the conversation history never
holds two consecutive messages of the same role: every run's final
history alternates (each attempt's history is a prefix of the final one,
and alternation is prefix-closed); moreover a validation-failure retry
with raw-response context appends exactly one assistant message followed
by one user message, while a retryable transport error or a validation
failure without context leaves the history unchanged. -/
theorem retry_history_alternation :
    (∀ (T : Type) (gen : Nat → List ChatMessage → AttemptOutcome T)
        (prompt : String) (mr : Option Nat),
      alternatingRoles
        (generate_with_retry_with_history gen prompt mr).messages = true) ∧
    (∀ (T : Type) (gen : Nat → List ChatMessage → AttemptOutcome T)
        (attempt r : Nat) (ms : List ChatMessage) (s c : Nat) (m : String)
        (ctx : ValidationFailureContext),
      gen attempt ms = .err (.validationError m) (some ctx) →
      retryLoop gen attempt (r + 2) ms s c =
        retryLoop gen (attempt + 1) (r + 1)
          (ms ++ [ChatMessage.assistant ctx.raw_response,
            ChatMessage.user (error_feedback ctx.error_message)])
          (s + 1) (c + 1)) ∧
    (∀ (T : Type) (gen : Nat → List ChatMessage → AttemptOutcome T)
        (attempt r : Nat) (ms : List ChatMessage) (s c : Nat) (m : String),
      gen attempt ms = .err (.validationError m) none →
      retryLoop gen attempt (r + 2) ms s c =
        retryLoop gen (attempt + 1) (r + 1) ms (s + 1) (c + 1)) ∧
    (∀ (T : Type) (gen : Nat → List ChatMessage → AttemptOutcome T)
        (attempt r : Nat) (ms : List ChatMessage) (s c : Nat)
        (d : Option Nat) (ctx : Option ValidationFailureContext),
      gen attempt ms = .err (.otherError true d) ctx →
      retryLoop gen attempt (r + 2) ms s c =
        retryLoop gen (attempt + 1) (r + 1) ms (s + 1) (c + 1)) := by
  refine ⟨?_, ?_, ?_, ?_⟩
  · intro T gen prompt mr
    have halt : alternatingRoles [ChatMessage.user prompt] = true := by
      simp [alternatingRoles]
    have hend : endsWithUser [ChatMessage.user prompt] = true := by
      simp [endsWithUser, ChatMessage.user]
    cases mr with
    | none =>
      cases hg : gen 0 [ChatMessage.user prompt] with
      | ok t => simp [generate_with_retry_with_history, hg, halt]
      | err e ctx => simp [generate_with_retry_with_history, hg, halt]
    | some mr =>
      by_cases hmr : mr = 0
      · subst hmr
        cases hg : gen 0 [ChatMessage.user prompt] with
        | ok t => simp [generate_with_retry_with_history, hg, halt]
        | err e ctx => simp [generate_with_retry_with_history, hg, halt]
      · have hrun : generate_with_retry_with_history gen prompt (some mr) =
            retryLoop gen 0 (mr + 1) [ChatMessage.user prompt] 0 0 := by
          simp [generate_with_retry_with_history, hmr]
        rw [hrun]
        exact retryLoop_alternating gen (mr + 1) 0 _ 0 0 halt hend
  · intro T gen attempt r ms s c m ctx hg
    exact retryLoop_validation_step gen attempt r ms s c m ctx hg
  · intro T gen attempt r ms s c m hg
    exact retryLoop_validation_noctx_step gen attempt r ms s c m hg
  · intro T gen attempt r ms s c d ctx hg
    exact retryLoop_retryable_step gen attempt r ms s c d ctx hg

/-- Witness for C9: the history-append equation evaluated for a concrete
always-failing backend on the initial history. -/
theorem retry_history_alternation_witness :
    retryLoop (fun _ _ => AttemptOutcome.err (T := Unit)
        (.validationError "m") (some ⟨"m", "raw"⟩))
      0 2 [ChatMessage.user "p"] 0 0 =
    retryLoop (fun _ _ => AttemptOutcome.err (T := Unit)
        (.validationError "m") (some ⟨"m", "raw"⟩))
      1 1 [ChatMessage.user "p", ChatMessage.assistant "raw",
        ChatMessage.user (error_feedback "m")] 1 1 :=
  retry_history_alternation.2.1 Unit
    (fun _ _ => AttemptOutcome.err (.validationError "m")
      (some ⟨"m", "raw"⟩))
    0 0 [ChatMessage.user "p"] 0 0 "m" ⟨"m", "raw"⟩ rfl

/-! ### Claims C8 and C10: error classifier -/

/-- C8.  The classifier maps status and body deterministically:
401 to `authenticationFailed`; 403 to `permissionDenied`; 404 with a body
mentioning "model" to `invalidModel` with the hinted-or-extracted model
name and a suggested replacement; 404 otherwise to `other`; 400 to
`badRequest` with the body truncated to 200 bytes; 413 to
`requestTooLarge`; 429 to `rateLimited` carrying the parsed retry-after
(status 429 with a `Retry-After: 5` header yields `rateLimited (some 5)`
seconds); 500 and 502 to `serverError`; 503 to `serviceUnavailable`; 520
through 524 to `gatewayError`; any other status to `other` with the body
truncated to 500 bytes. -/
theorem classifier_deterministic_mapping
    (body : String) (ra : Option Nat) (hint : Option String) :
    classify_api_error 401 body ra hint = .authenticationFailed ∧
    classify_api_error 403 body ra hint = .permissionDenied ∧
    (strContains (strToLower body) "model" = true →
      classify_api_error 404 body ra hint =
        .invalidModel
          (match hint with
           | some s => s
           | none =>
             (extract_model_from_error (strToLower body)).getD "unknown")
          (suggest_model (strToLower body))) ∧
    (strContains (strToLower body) "model" = false →
      classify_api_error 404 body ra hint = .other 404 body) ∧
    classify_api_error 400 body ra hint =
      .badRequest (truncate_message body 200) ∧
    classify_api_error 413 body ra hint = .requestTooLarge ∧
    classify_api_error 429 body ra hint = .rateLimited ra ∧
    (parse_retry_after "5" = some 5 ∧
      classify_api_error 429 body (parse_retry_after "5") hint =
        .rateLimited (some 5)) ∧
    classify_api_error 500 body ra hint = .serverError 500 ∧
    classify_api_error 502 body ra hint = .serverError 502 ∧
    classify_api_error 503 body ra hint = .serviceUnavailable ∧
    (∀ code, 520 ≤ code → code ≤ 524 →
      classify_api_error code body ra hint = .gatewayError code) ∧
    (∀ code,
      code ∉ ([401, 403, 404, 400, 413, 429, 500, 502, 503] : List Nat) →
      ¬(520 ≤ code ∧ code ≤ 524) →
      classify_api_error code body ra hint =
        .other code (truncate_message body 500)) := by
  refine ⟨rfl, rfl, ?_, ?_, rfl, rfl, rfl, ⟨by decide, ?_⟩, rfl, rfl, rfl,
    ?_, ?_⟩
  · intro h
    simp [classify_api_error, h]
  · intro h
    simp [classify_api_error, h]
  · have h5 : parse_retry_after "5" = some 5 := by decide
    rw [h5]
    rfl
  · intro code h1 h2
    interval_cases code <;> rfl
  · intro code h1 h2
    simp only [List.mem_cons, List.not_mem_nil, or_false, not_or] at h1
    obtain ⟨n401, n403, n404, n400, n413, n429, n500, n502, n503⟩ := h1
    simp [classify_api_error, n401, n403, n404, n400, n413, n429, n500,
      n502, n503, h2]

/-- Witness for C8: the hypothesis-bearing conjuncts evaluated at
concrete inputs — a 404 body mentioning a quoted gpt model, the 429
retry-after scenario, a gateway status and an unlisted status. -/
theorem classifier_deterministic_mapping_witness :
    classify_api_error 404 "No model named \x27gpt-9\x27 exists" none none =
      .invalidModel "gpt-9" (some "gpt-5.2") ∧
    classify_api_error 521 "oops" none none = .gatewayError 521 ∧
    classify_api_error 418 "teapot" none none =
      .other 418 (truncate_message "teapot" 500) := by
  refine ⟨?_, ?_, ?_⟩
  · have h := (classifier_deterministic_mapping
      "No model named \x27gpt-9\x27 exists" none none).2.2.1 (by decide)
    rw [h]
    decide
  · exact (classifier_deterministic_mapping "oops" none
      none).2.2.2.2.2.2.2.2.2.2.2.1 521 (by decide) (by decide)
  · exact (classifier_deterministic_mapping "teapot" none
      none).2.2.2.2.2.2.2.2.2.2.2.2 418 (by decide) (by decide)

/-- C10.  For every status in
{401, 403, 413, 429, 500, 502, 503, 520, 521, 522, 523, 524} the
classifier's result does not depend on the response body: any two bodies
(with the same retry-after and model hint) classify identically; and the
body does influence the result at status 404 (two bodies that differ on
mentioning "model" classify differently). -/
theorem classifier_body_independence :
    (∀ code,
      code ∈ ([401, 403, 413, 429, 500, 502, 503, 520, 521, 522, 523,
        524] : List Nat) →
      ∀ (b1 b2 : String) (ra : Option Nat) (hint : Option String),
        classify_api_error code b1 ra hint =
          classify_api_error code b2 ra hint) ∧
    classify_api_error 404 "missing model" none none ≠
      classify_api_error 404 "gone" none none := by
  constructor
  · intro code hc b1 b2 ra hint
    fin_cases hc <;> rfl
  · decide

/-- Witness for C10: body independence evaluated at status 429 with two
different bodies. -/
theorem classifier_body_independence_witness :
    classify_api_error 429 "slow down" (some 7) none =
      classify_api_error 429 "busy" (some 7) none :=
  classifier_body_independence.1 429 (by decide) "slow down" "busy"
    (some 7) none

/-! ### Claims C3, C6 and C7: derive-side schema generation -/

theorem get_core_wrapChain :
    ∀ (ws : List String) (name : String),
      (∀ w ∈ ws, w ∈ (["Option", "Box"] ++ arrayTypeNames : List String)) →
      name ∉ (["Option", "Box"] ++ arrayTypeNames : List String) →
      get_core_type_name (wrapChain ws (.path [name] [])) = some name
  | [], name, _, hname => by
    simp only [List.cons_append, List.nil_append, List.mem_cons,
      arrayTypeNames, List.not_mem_nil, or_false, not_or] at hname
    obtain ⟨h1, h2, h3, h4, h5, h6⟩ := hname
    simp [wrapChain, get_core_type_name, h1, h2, h3, h4, h5, h6,
      arrayTypeNames]
  | w :: ws, name, hws, hname => by
    have hw := hws w (List.mem_cons_self w ws)
    have ih := get_core_wrapChain ws name
      (fun x hx => hws x (List.mem_cons_of_mem w hx)) hname
    simp only [List.cons_append, List.nil_append, List.mem_cons,
      arrayTypeNames, List.not_mem_nil, or_false] at hw
    simp only [wrapChain]
    rcases hw with h | h | h | h | h | h <;>
      subst h <;> simp [get_core_type_name, arrayTypeNames, ih]

/-- C3 (amended).  Self-reference detection looks through every chain of
`Option`, `Box` and the collection wrappers (`Vec`, `Array`, `HashSet`,
`BTreeSet`) down to the terminal type name, but it does not look through
tuple types: `get_core_type_name` yields nothing for a tuple, so a field
type reaching the container's own name only through a tuple element (such
as `(Box<Self>, i32)`) is never detected as self-referential. -/
theorem self_reference_unwrapping_amended :
    (∀ (ws : List String) (name : String),
      (∀ w ∈ ws, w ∈ (["Option", "Box"] ++ arrayTypeNames : List String)) →
      name ∉ (["Option", "Box"] ++ arrayTypeNames : List String) →
      is_self_reference (wrapChain ws (.path [name] [])) name = true) ∧
    (∀ (es : List RustType) (name : String),
      is_self_reference (.tuple es) name = false) := by
  constructor
  · intro ws name hws hname
    simp [is_self_reference, get_core_wrapChain ws name hws hname]
  · intro es name
    simp [is_self_reference, get_core_type_name]

/-- Witness for C3: the wrapper chain `Option<Vec<Box<FileNode>>>` is
detected as a self-reference of `FileNode`. -/
theorem self_reference_unwrapping_amended_witness :
    is_self_reference
      (wrapChain ["Option", "Vec", "Box"] (.path ["FileNode"] []))
      "FileNode" = true :=
  self_reference_unwrapping_amended.1 ["Option", "Vec", "Box"] "FileNode"
    (by intro w hw; fin_cases hw <;> decide) (by decide)

/-- C3 is false as stated: a field of type `(Box<FileNode>, i32)` inside
`FileNode` reaches the container's name through Tuple-then-Box
unwrapping, yet `is_self_reference` does not detect it (while the same
chain without the tuple is detected). -/
theorem self_reference_tuple_counterexample :
    is_self_reference
      (.tuple [.path ["Box"] [.path ["FileNode"] []], .path ["i32"] []])
      "FileNode" = false ∧
    is_self_reference (.path ["Box"] [.path ["FileNode"] []]) "FileNode"
      = true := by
  refine ⟨by decide, by decide⟩

/-- C6.  For every struct descriptor whose effective wire names are
pairwise distinct, the synthesized object schema's `required` array holds
exactly the effective wire names of the non-`Option` fields: every
non-`Option` field's name appears, and no `Option` field's name does. -/
theorem struct_required_exactly_nonoptional (env : RustType → Json)
    (d : StructDesc)
    (hnodup : (d.fields.map (effectiveFieldName d)).Nodup) :
    ∃ rs, (structObjectSchema env d).get "required" = some (.arr rs) ∧
      (∀ f ∈ d.fields, is_option_type f.ty = false →
        Json.str (effectiveFieldName d f) ∈ rs) ∧
      (∀ f ∈ d.fields, is_option_type f.ty = true →
        Json.str (effectiveFieldName d f) ∉ rs) := by
  refine ⟨(d.fields.filter (fun f => !is_option_type f.ty)).map
    (fun f => .str (effectiveFieldName d f)), ?_, ?_, ?_⟩
  · show Json.get (structObjectSchema env d) "required" = _
    simp only [structObjectSchema, Json.get]
    exact jget_jinsert_self _ _ _
  · intro f hf hopt
    exact List.mem_map.mpr
      ⟨f, List.mem_filter.mpr ⟨hf, by simp [hopt]⟩, rfl⟩
  · intro f hf hopt hmem
    obtain ⟨g, hgf, heq⟩ := List.mem_map.mp hmem
    obtain ⟨hgmem, hgopt⟩ := List.mem_filter.mp hgf
    have heff : effectiveFieldName d g = effectiveFieldName d f :=
      Json.str.inj heq
    have hfg : g = f := List.inj_on_of_nodup_map hnodup hgmem hf heff
    rw [hfg] at hgopt
    simp [hopt] at hgopt

/-- Witness for C6: the required list of the `FileNode` struct — exactly
the non-`Option` fields `name` and `is_dir`. -/
theorem struct_required_exactly_nonoptional_witness :
    ∃ rs, (structObjectSchema trivEnv fileNodeDesc).get "required" =
        some (.arr rs) ∧
      (∀ f ∈ fileNodeDesc.fields, is_option_type f.ty = false →
        Json.str (effectiveFieldName fileNodeDesc f) ∈ rs) ∧
      (∀ f ∈ fileNodeDesc.fields, is_option_type f.ty = true →
        Json.str (effectiveFieldName fileNodeDesc f) ∉ rs) :=
  struct_required_exactly_nonoptional trivEnv fileNodeDesc (by decide)

/-- The schema call for the `next: Option<Box<R>>` field of `R` takes
the unguarded `Box` branch: it is the nested `R::schema()` call itself. -/
theorem fieldPropsRT_rNext (sch : RustType → Option Json) :
    fieldPropsRT sch "R"
      ⟨"next", .path ["Option"] [.path ["Box"] [.path ["R"] []]],
        none, none, none, []⟩ =
      objPropsOf (sch (.path ["R"] [])) := rfl

/-- When the nested `R::schema()` call does not complete, neither does
the synthesis of `R`. -/
theorem generateRT_rSelf_none (sch : RustType → Option Json)
    (h : sch (.path ["R"] []) = none) :
    generate_struct_schemaRT sch rSelfDesc = none := by
  have h1 : fieldPropsWithAttrsRT sch "R"
      ⟨"next", .path ["Option"] [.path ["Box"] [.path ["R"] []]],
        none, none, none, []⟩ = none := by
    simp only [fieldPropsWithAttrsRT, fieldPropsRT_rNext sch, h, objPropsOf]
  simp only [generate_struct_schemaRT, structObjectSchemaRT, rSelfDesc,
    fieldsFoldRT, h1]

/-- `FileNode`'s generated body consults no nested `schema()` call: its
only struct-typed field goes through the guarded array-items branch and
becomes a `$ref`, so the synthesis completes with the same value
whatever the nested-call evaluator. -/
theorem generateRT_fileNode (sch : RustType → Option Json) :
    generate_struct_schemaRT sch fileNodeDesc = some fileNodeSchema := rfl

/-- C7 (amended).  Only the array-items branch of the field generator
checks `is_self_reference` and emits `$ref`; the map, `Box` and
nested-struct branches call the nested type's `schema()` unconditionally.
Consequently: whenever the runtime synthesis of a self-referential
struct's body completes, the top level is the finite
`{"$defs": {name: body}, "$ref": "#/$defs/name"}` tree; and a struct
whose self-reference passes through an array layer — the recursive
`FileNode` struct — completes at every nested-call depth with the finite
tree whose children items schema is `{"$ref": "#/$defs/FileNode"}`,
never an inline copy (and the env-abstracted generator yields the same
value). -/
theorem recursive_struct_synthesis_amended :
    (∀ (sch : RustType → Option Json) (d : StructDesc) (s : Json),
      structObjectSchemaRT sch d = some s →
      (d.fields.any fun f => is_self_reference f.ty d.name) = true →
      generate_struct_schemaRT sch d =
        some (.obj [("$defs", .obj [(d.name, s)]),
          ("$ref", .str ("#/$defs/" ++ d.name))])) ∧
    (∀ sch : RustType → Option Json,
      generate_struct_schemaRT sch fileNodeDesc = some fileNodeSchema) ∧
    (∀ (ext : RustType → Json) (fuel : Nat),
      schema_rt fnWorld ext (fuel + 1) (.path ["FileNode"] []) =
        some fileNodeSchema) ∧
    generate_struct_schema trivEnv fileNodeDesc = fileNodeSchema ∧
    jnav fileNodeSchema
        ["$defs", "FileNode", "properties", "children", "items"] =
      some (.obj [("$ref", .str "#/$defs/FileNode")]) := by
  refine ⟨?_, generateRT_fileNode, ?_, by decide, by decide⟩
  · intro sch d s hs hany
    simp [generate_struct_schemaRT, hs, hany]
  · intro ext fuel
    show generate_struct_schemaRT (schema_rt fnWorld ext fuel) fileNodeDesc
      = some fileNodeSchema
    exact generateRT_fileNode _

/-- Witness for C7: the `$defs`/`$ref` wrapping applied to the completed
`FileNode` body under a nested-call evaluator that completes nothing. -/
theorem recursive_struct_synthesis_amended_witness :
    generate_struct_schemaRT (fun _ => none) fileNodeDesc =
      some (.obj [("$defs", .obj [(fileNodeDesc.name, fileNodeBody)]),
        ("$ref", .str ("#/$defs/" ++ fileNodeDesc.name))]) :=
  recursive_struct_synthesis_amended.1 (fun _ => none) fileNodeDesc
    fileNodeBody (by decide) (by decide)

/-- C7 is false as stated: only the array-items branch checks for a
self-reference; the `Box`-inside-`Option` branch calls the nested
type's `schema()` unconditionally, so for `struct R { next:
Option<Box<R>> }` — which IS detected as self-referential, so the claim
covers it — the generated `R::schema()` calls itself, and the synthesis
never completes: the runtime evaluation yields no value at any nested
call depth, so no finite tree is ever produced. -/
theorem recursive_struct_divergence_counterexample :
    (rSelfDesc.fields.any fun f => is_self_reference f.ty rSelfDesc.name)
      = true ∧
    (∀ (ext : RustType → Json) (fuel : Nat),
      schema_rt rWorld ext fuel (.path ["R"] []) = none) ∧
    (∀ (ext : RustType → Json) (fuel : Nat),
      generate_struct_schemaRT (schema_rt rWorld ext fuel) rSelfDesc
        = none) := by
  have key : ∀ (ext : RustType → Json) (fuel : Nat),
      schema_rt rWorld ext fuel (.path ["R"] []) = none := by
    intro ext fuel
    induction fuel with
    | zero => rfl
    | succ fuel ih =>
      show generate_struct_schemaRT (schema_rt rWorld ext fuel) rSelfDesc
        = none
      exact generateRT_rSelf_none _ ih
  exact ⟨by decide, key,
    fun ext fuel => generateRT_rSelf_none _ (key ext fuel)⟩

end Rstructor
